import Mathlib

/-!
# Traction control: vehicle model, ramp controller and fixed-step loop

A shallow embedding of `Vehicle.cpp`, `TractionControl.cpp` and `Simulation.cpp`, and of the
learned-model variant of `TractionControl.cpp`, whose inference backend is a parameter.

Numbers: the C++ `double`s are read as elements of an arbitrary linearly ordered field `α`
with a floor function (exact arithmetic, no rounding, no NaN or infinity), so every
definition computes over `ℚ` and every theorem also holds over `ℝ`.  The two library
functions that have no rational counterpart are taken as parameters: `exp` for `std::exp`
and `pi` for the constant `M_PI`.

Containers: `std::vector<Wheel>` is a `List`; a wheel index is a C++ `int`, here an
`Int`.  The vector is only ever sized by the constructor from an `int`, so
`(int)wheels.size()` is the list length seen as an `Int`.
-/

set_option linter.unusedSectionVars false
set_option linter.unusedVariables false

namespace TractionSim

variable {α : Type} [LinearOrderedField α] [FloorRing α]

/-! ## Library functions used by the sources -/

/-- The `std::max(a, b)` of `<algorithm>`: `(a < b) ? b : a`. -/
def stdMax (a b : α) : α := if a < b then b else a

/-- The `std::min(a, b)` of `<algorithm>`: `(b < a) ? b : a`. -/
def stdMin (a b : α) : α := if b < a then b else a

/-- The `std::fabs(x)` of `<cmath>`. -/
def fabs (x : α) : α := if x < 0 then -x else x

/-- Rounding toward zero, as done inside `std::fmod`. -/
def truncToInt (q : α) : Int := if 0 ≤ q then Int.floor q else Int.ceil q

/-- The `std::fmod(x, y)` of `<cmath>`: `x - trunc(x / y) * y`. -/
def fmod (x y : α) : α := x - (truncToInt (x / y) : α) * y

/-! ## Data model (`Vehicle.h`) -/

/-- The `Vehicle::Wheel` struct. -/
structure Wheel (α : Type) where
  angularVelocity : α
  brakeTorque : α
  driveTorque : α
  rotationAngle : α
deriving DecidableEq

/-- The `Vehicle` class: its public parameters and its private state. -/
structure Vehicle (α : Type) where
  wheelRadius : α
  mass : α
  wheelInertia : α
  muPeak : α
  slipOpt : α
  linearSpeed : α
  wheels : List (Wheel α)
deriving DecidableEq

/-- The value of `(int)wheels.size()`. -/
def Vehicle.wheelCount (v : Vehicle α) : Int := (v.wheels.length : Int)

/-! ## `Vehicle.cpp` -/

/-- The constructor `Vehicle::Vehicle(initialSpeed, numWheels)`.  The loop over the wheels
reads the member `wheelRadius` before the constructor body assigns it; `staleRadius` is the
value found there.  A negative `numWheels` makes `wheels.resize` throw: `none`. -/
def Vehicle.new (staleRadius initialSpeed : α) (numWheels : Int) : Option (Vehicle α) :=
  if numWheels < 0 then none
  else
    let initialOmega : α := if staleRadius > 1e-5 then initialSpeed / staleRadius else 0.0
    some
      { linearSpeed := initialSpeed
        wheels := List.replicate numWheels.toNat
          { angularVelocity := initialOmega, brakeTorque := 0.0, driveTorque := 0.0,
            rotationAngle := 0.0 }
        wheelRadius := 0.3
        mass := 1200
        wheelInertia := 1.0
        muPeak := 1.0
        slipOpt := 0.1 }

/-- The method `Vehicle::computeSlipRatio(wheelIndex)`. -/
def Vehicle.computeSlipRatio (v : Vehicle α) (wheelIndex : Int) : α :=
  if wheelIndex < 0 ∨ wheelIndex ≥ v.wheelCount then 0
  else
    match v.wheels[wheelIndex.toNat]? with
    | none => 0
    | some w =>
      let wheelLinSpeed := w.angularVelocity * v.wheelRadius
      let denom := stdMax v.linearSpeed 0.001
      let slip := (wheelLinSpeed - v.linearSpeed) / denom
      slip

/-- The method `Vehicle::setBrakeTorque(wheelIndex, torque)`. -/
def Vehicle.setBrakeTorque (v : Vehicle α) (wheelIndex : Int) (torque : α) : Vehicle α :=
  if 0 ≤ wheelIndex ∧ wheelIndex < v.wheelCount then
    { v with
      wheels := List.modify (fun w => { w with brakeTorque := stdMax 0 torque }) wheelIndex.toNat
        v.wheels }
  else v

/-- The method `Vehicle::setDriveTorque(wheelIndex, torque)`. -/
def Vehicle.setDriveTorque (v : Vehicle α) (wheelIndex : Int) (torque : α) : Vehicle α :=
  if 0 ≤ wheelIndex ∧ wheelIndex < v.wheelCount then
    { v with
      wheels := List.modify (fun w => { w with driveTorque := stdMax 0 torque }) wheelIndex.toNat
        v.wheels }
  else v

/-- One iteration of the first loop of `Vehicle::update`: the signed friction force of
wheel `i` is added to `totalForce`. -/
def Vehicle.bodyForceStep (exp : α → α) (v : Vehicle α) (totalForce : α) (i : Nat) : α :=
  match v.wheels[i]? with
  | none => totalForce
  | some w =>
    let slip := v.computeSlipRatio (i : Int)
    let absSlip := fabs slip
    let k : α := 10.0
    let mu := v.muPeak * (1.0 - exp (-k * absSlip))
    let normalForce := (v.mass * 9.81) / (v.wheels.length : α)
    let frictionForce := mu * normalForce
    let wheelLinSpeed := w.angularVelocity * v.wheelRadius
    let diff := wheelLinSpeed - v.linearSpeed
    let sign : α := if diff ≥ 0.0 then 1.0 else -1.0
    let frictionForce := frictionForce * sign
    totalForce + frictionForce

/-- The first loop of `Vehicle::update`: `totalForce` after `i = 0 .. wheels.size() - 1`. -/
def Vehicle.totalForce (exp : α → α) (v : Vehicle α) : α :=
  (List.range v.wheels.length).foldl (v.bodyForceStep exp) 0.0

/-- The speed update of `Vehicle::update` between its two loops. -/
def Vehicle.bodySpeed (exp : α → α) (v : Vehicle α) (dt : α) : α :=
  let accel := v.totalForce exp / v.mass
  let linearSpeed := v.linearSpeed + accel * dt
  if linearSpeed < 0.0 then 0.0 else linearSpeed

/-- The body of the second loop of `Vehicle::update` for one wheel `w`; `v` is the vehicle
whose `linearSpeed` has already been updated. -/
def Vehicle.wheelStep (exp : α → α) (pi : α) (v : Vehicle α) (dt : α) (w : Wheel α) :
    Wheel α :=
  let wheelLinSpeed := w.angularVelocity * v.wheelRadius
  let diff := wheelLinSpeed - v.linearSpeed
  let absSlip := fabs (diff / stdMax v.linearSpeed 0.001)
  let k : α := 10.0
  let mu := v.muPeak * (1.0 - exp (-k * absSlip))
  let normalForce := (v.mass * 9.81) / (v.wheels.length : α)
  let frictionForce := mu * normalForce
  let sign : α := if wheelLinSpeed ≥ v.linearSpeed then 1.0 else -1.0
  let frictionTorque := frictionForce * v.wheelRadius * sign
  let netTorque := w.driveTorque - w.brakeTorque - frictionTorque
  let alpha := netTorque / v.wheelInertia
  let angularVelocity := w.angularVelocity + alpha * dt
  let angularVelocity := if angularVelocity < 0.0 then 0.0 else angularVelocity
  let rotationAngle := w.rotationAngle + angularVelocity * dt
  let rotationAngle :=
    if rotationAngle > 2.0 * pi then fmod rotationAngle (2.0 * pi) else rotationAngle
  { w with angularVelocity := angularVelocity, rotationAngle := rotationAngle }

/-- The method `Vehicle::update(dt)`. -/
def Vehicle.update (exp : α → α) (pi : α) (v : Vehicle α) (dt : α) : Vehicle α :=
  if dt ≤ 0.0 then v
  else
    let v1 : Vehicle α := { v with linearSpeed := v.bodySpeed exp dt }
    { v1 with wheels := v1.wheels.map (v1.wheelStep exp pi dt) }

/-! ## `TractionControl.h`, `TractionControl.cpp` -/

/-- The private members of the `TractionControl` class. -/
structure TractionControl (α : Type) where
  desiredSlip : α
  maxBrakeTorque : α
  maxDriveTorque : α
  brakeRampRate : α
  driveRampRate : α
deriving DecidableEq

/-- The constructor `TractionControl::TractionControl(desiredSlip_)`. -/
def TractionControl.new (desiredSlip_ : α) : TractionControl α :=
  { desiredSlip := desiredSlip_
    maxBrakeTorque := 200.0
    maxDriveTorque := 150.0
    brakeRampRate := 500.0
    driveRampRate := 300.0 }

/-- The body of the loop of `TractionControl::update` for the index `i`. -/
def TractionControl.updateWheel (c : TractionControl α) (dt : α) (vehicle : Vehicle α)
    (i : Nat) : Vehicle α :=
  match vehicle.wheels[i]? with
  | none => vehicle
  | some w =>
    let slip := vehicle.computeSlipRatio (i : Int)
    let slipError := slip - c.desiredSlip
    let currentBrake := w.brakeTorque
    let currentDrive := w.driveTorque
    if slipError > 0.0 then
      let inc := c.brakeRampRate * slipError * dt
      let dec := c.driveRampRate * slipError * dt
      let newBrake := stdMin c.maxBrakeTorque (currentBrake + inc)
      let newDrive := stdMax 0.0 (currentDrive - dec)
      (vehicle.setBrakeTorque (i : Int) newBrake).setDriveTorque (i : Int) newDrive
    else
      let slipMag := -slipError
      let dec := c.brakeRampRate * slipMag * dt
      let inc := c.driveRampRate * slipMag * dt
      let newBrake := stdMax 0.0 (currentBrake - dec)
      let newDrive := stdMin c.maxDriveTorque (currentDrive + inc)
      (vehicle.setBrakeTorque (i : Int) newBrake).setDriveTorque (i : Int) newDrive

/-- The method `TractionControl::update(vehicle, dt)`: the loop `i = 0 .. n - 1` with
`n = (int)wheels.size()` read once before the loop. -/
def TractionControl.update (c : TractionControl α) (vehicle : Vehicle α) (dt : α) :
    Vehicle α :=
  (List.range vehicle.wheels.length).foldl (c.updateWheel dt) vehicle

/-! ## Learned-model controller (`ai-emulation/traction_control_model`) -/

/-- The `std::clamp(v, lo, hi)` of `<algorithm>`: `(v < lo) ? lo : (hi < v) ? hi : v`. -/
def stdClamp (v lo hi : α) : α := if v < lo then lo else if hi < v then hi else v

/-- What the `try` block around `model.forward` of the learned controller can meet: a
`c10::Error` is thrown; the output is a tuple whose elements `0` and `1` hold the drive and
the brake prediction; the output is a tensor whose row `0` has the given lanes; the output
has another type.  The inference library itself is outside the repository. -/
inductive InferenceResult (α : Type) where
  | error : InferenceResult α
  | tuple (drive brake : α) : InferenceResult α
  | tensor (lanes : List α) : InferenceResult α
  | other : InferenceResult α

/-- The private members of the learned-model `TractionControl` class; `model` maps the
feature vector of a wheel to what inference yields. -/
structure LearnedControl (α : Type) where
  desiredSlip : α
  maxBrakeTorque : α
  maxDriveTorque : α
  brakeRampRate : α
  driveRampRate : α
  model : List α → InferenceResult α
  modelLoaded : Bool

/-- The constructor `TractionControl::TractionControl(desiredSlip_, modelPath)` of the
learned variant; `load` stands for `torch::jit::load` followed by `model.to(device)`, and
yields `none` when a `c10::Error` is thrown. -/
def LearnedControl.new (load : String → Option (List α → InferenceResult α))
    (desiredSlip_ : α) (modelPath : String) : LearnedControl α :=
  let unloaded : LearnedControl α :=
    { desiredSlip := desiredSlip_
      maxBrakeTorque := 200.0
      maxDriveTorque := 150.0
      brakeRampRate := 500.0
      driveRampRate := 300.0
      model := fun _ => InferenceResult.error
      modelLoaded := false }
  if !modelPath.isEmpty then
    match load modelPath with
    | some m => { unloaded with model := m, modelLoaded := true }
    | none => unloaded
  else unloaded

/-- The body of the loop of the learned-model `TractionControl::update` for the index
`i`. -/
def LearnedControl.updateWheel (c : LearnedControl α) (dt : α) (vehicle : Vehicle α)
    (i : Nat) : Vehicle α :=
  match vehicle.wheels[i]? with
  | none => vehicle
  | some w =>
    let slip := vehicle.computeSlipRatio (i : Int)
    if c.modelLoaded then
      let input : List α :=
        [slip, w.angularVelocity, vehicle.linearSpeed, w.brakeTorque, w.driveTorque,
          0.0, 0.0, 0.0]
      match c.model input with
      | InferenceResult.tuple predictedDriveTorque predictedBrakeTorque =>
        (vehicle.setBrakeTorque (i : Int)
            (stdClamp predictedBrakeTorque 0.0 c.maxBrakeTorque)).setDriveTorque (i : Int)
          (stdClamp predictedDriveTorque 0.0 c.maxDriveTorque)
      | InferenceResult.tensor (predictedDriveTorque :: predictedBrakeTorque :: _) =>
        (vehicle.setBrakeTorque (i : Int)
            (stdClamp predictedBrakeTorque 0.0 c.maxBrakeTorque)).setDriveTorque (i : Int)
          (stdClamp predictedDriveTorque 0.0 c.maxDriveTorque)
      | InferenceResult.tensor _ => vehicle
      | InferenceResult.other => vehicle
      | InferenceResult.error => vehicle
    else
      let slipError := slip - c.desiredSlip
      let currentBrake := w.brakeTorque
      let currentDrive := w.driveTorque
      if slipError > 0.0 then
        let inc := c.brakeRampRate * slipError * dt
        let dec := c.driveRampRate * slipError * dt
        let newBrake := stdMin c.maxBrakeTorque (currentBrake + inc)
        let newDrive := stdMax 0.0 (currentDrive - dec)
        (vehicle.setBrakeTorque (i : Int) newBrake).setDriveTorque (i : Int) newDrive
      else
        let slipMag := -slipError
        let dec := c.brakeRampRate * slipMag * dt
        let inc := c.driveRampRate * slipMag * dt
        let newBrake := stdMax 0.0 (currentBrake - dec)
        let newDrive := stdMin c.maxDriveTorque (currentDrive + inc)
        (vehicle.setBrakeTorque (i : Int) newBrake).setDriveTorque (i : Int) newDrive

/-- The method `TractionControl::update(vehicle, dt)` of the learned variant. -/
def LearnedControl.update (c : LearnedControl α) (vehicle : Vehicle α) (dt : α) :
    Vehicle α :=
  (List.range vehicle.wheels.length).foldl (c.updateWheel dt) vehicle

/-! ## `Simulation.cpp` -/

/-- The local `physicsDt` of `Simulation::run`. -/
def physicsDt : α := 0.01

/-- The state of `Simulation::run`: the local `accumulator`, the vehicle, and a counter of
the physics sub-steps executed so far (a ghost variable, not in the source). -/
structure SimState (α : Type) where
  accumulator : α
  vehicle : Vehicle α
  steps : Nat
deriving DecidableEq

/-- The body of the inner loop of `Simulation::run` on the vehicle: the controller update
followed by the vehicle update, both with `physicsDt`. -/
def subStep (exp : α → α) (pi : α) (tc : TractionControl α) (vehicle : Vehicle α) :
    Vehicle α :=
  (tc.update vehicle physicsDt).update exp pi physicsDt

/-- The inner loop `while (accumulator >= physicsDt)` of `Simulation::run`: controller
update, then vehicle update, then `accumulator -= physicsDt`. -/
def drain (exp : α → α) (pi : α) (tc : TractionControl α) (s : SimState α) : SimState α :=
  if h : s.accumulator ≥ physicsDt then
    drain exp pi tc
      { accumulator := s.accumulator - physicsDt
        vehicle := subStep exp pi tc s.vehicle
        steps := s.steps + 1 }
  else s
termination_by (Int.floor (s.accumulator / physicsDt)).toNat
decreasing_by
  have hp : (0 : α) < physicsDt := by unfold physicsDt; norm_num
  have h1 : (s.accumulator - physicsDt) / physicsDt = s.accumulator / physicsDt - 1 := by
    field_simp
  have h2 : (1 : α) ≤ s.accumulator / physicsDt := by
    rw [le_div_iff₀ hp]; simpa using h
  have h3 : (1 : Int) ≤ Int.floor (s.accumulator / physicsDt) := by
    rw [Int.le_floor]; simpa using h2
  show (Int.floor ((s.accumulator - physicsDt) / physicsDt)).toNat
    < (Int.floor (s.accumulator / physicsDt)).toNat
  rw [h1, Int.floor_sub_one]
  omega

/-- One iteration of the outer loop of `Simulation::run` for a measured `frameTime`:
accumulate, then drain.  Rendering and sleeping do not touch the state. -/
def frame (exp : α → α) (pi : α) (tc : TractionControl α) (s : SimState α) (frameTime : α) :
    SimState α :=
  drain exp pi tc { s with accumulator := s.accumulator + frameTime }

/-- The method `Simulation::run` over the frame times measured while the visualizer
reports that it is running. -/
def run (exp : α → α) (pi : α) (tc : TractionControl α) (vehicle : Vehicle α)
    (frameTimes : List α) : SimState α :=
  frameTimes.foldl (frame exp pi tc) { accumulator := 0.0, vehicle := vehicle, steps := 0 }

/-! ## Predicates on states -/

/-- The non-negativity invariant of the data model: the body speed and every wheel's
angular velocity, brake torque and drive torque are at least `0`. -/
def Vehicle.NonNeg (v : Vehicle α) : Prop :=
  0 ≤ v.linearSpeed ∧
    ∀ w ∈ v.wheels, 0 ≤ w.angularVelocity ∧ 0 ≤ w.brakeTorque ∧ 0 ≤ w.driveTorque

instance (v : Vehicle α) : Decidable v.NonNeg := by
  unfold Vehicle.NonNeg; infer_instance

/-- The torques of a wheel lie within `[0, maxBrake]` and `[0, maxDrive]`. -/
def Wheel.TorqueBounded (maxBrake maxDrive : α) (w : Wheel α) : Prop :=
  (0 ≤ w.brakeTorque ∧ w.brakeTorque ≤ maxBrake) ∧
    (0 ≤ w.driveTorque ∧ w.driveTorque ≤ maxDrive)

instance (maxBrake maxDrive : α) (w : Wheel α) :
    Decidable (w.TorqueBounded maxBrake maxDrive) := by
  unfold Wheel.TorqueBounded; infer_instance

/-- Every wheel's torques lie within `[0, maxBrake]` and `[0, maxDrive]`. -/
def Vehicle.TorqueBounded (maxBrake maxDrive : α) (v : Vehicle α) : Prop :=
  ∀ w ∈ v.wheels, w.TorqueBounded maxBrake maxDrive

instance (maxBrake maxDrive : α) (v : Vehicle α) :
    Decidable (v.TorqueBounded maxBrake maxDrive) := by
  unfold Vehicle.TorqueBounded; infer_instance

/-! ## Derived definitions used to state the results -/

/-- The wheel that one iteration of the loop of `TractionControl::update` leaves at its
index, given the slip read for it and the wheel `w` found there: the two branches of the
source with the clamps of the two setters applied. -/
def TractionControl.wheelResult (c : TractionControl α) (dt slip : α) (w : Wheel α) :
    Wheel α :=
  if slip - c.desiredSlip > 0 then
    { w with
      brakeTorque :=
        stdMax 0 (stdMin c.maxBrakeTorque
          (w.brakeTorque + c.brakeRampRate * (slip - c.desiredSlip) * dt))
      driveTorque :=
        stdMax 0 (stdMax 0 (w.driveTorque - c.driveRampRate * (slip - c.desiredSlip) * dt)) }
  else
    { w with
      brakeTorque :=
        stdMax 0 (stdMax 0 (w.brakeTorque - c.brakeRampRate * (-(slip - c.desiredSlip)) * dt))
      driveTorque :=
        stdMax 0 (stdMin c.maxDriveTorque
          (w.driveTorque + c.driveRampRate * (-(slip - c.desiredSlip)) * dt)) }

/-- The reference ramp law in the words of the specification, for one wheel: with
`e = slip - desiredSlip`, if `e > 0` the brake becomes `max 0 (min 200 (brake + 500 e dt))`
and the drive `max 0 (drive - 300 e dt)`; otherwise the brake becomes
`max 0 (brake - 500 (-e) dt)` and the drive `max 0 (min 150 (drive + 300 (-e) dt))`.
Angular velocity and rotation angle are kept. -/
def rampLaw (desiredSlip dt slip : α) (w : Wheel α) : Wheel α :=
  let e := slip - desiredSlip
  if e > 0 then
    { angularVelocity := w.angularVelocity
      brakeTorque := max 0 (min 200 (w.brakeTorque + 500 * e * dt))
      driveTorque := max 0 (w.driveTorque - 300 * e * dt)
      rotationAngle := w.rotationAngle }
  else
    { angularVelocity := w.angularVelocity
      brakeTorque := max 0 (w.brakeTorque - 500 * (-e) * dt)
      driveTorque := max 0 (min 150 (w.driveTorque + 300 * (-e) * dt))
      rotationAngle := w.rotationAngle }

/-- Two vehicles have the same vehicle-level fields and the same number of wheels. -/
def Vehicle.SameFrame (v v' : Vehicle α) : Prop :=
  v'.wheelRadius = v.wheelRadius ∧ v'.mass = v.mass ∧ v'.wheelInertia = v.wheelInertia ∧
    v'.muPeak = v.muPeak ∧ v'.slipOpt = v.slipOpt ∧ v'.linearSpeed = v.linearSpeed ∧
    v'.wheels.length = v.wheels.length

/-- The signed friction force the first loop of `Vehicle::update` adds for the index `i`. -/
def Vehicle.wheelForce (exp : α → α) (v : Vehicle α) (i : Nat) : α :=
  v.bodyForceStep exp 0 i

/-! ## Concrete states over `ℚ` -/

/-- A wheel over `ℚ` that spins faster than the body of `sampleVehicle`. -/
def fastWheel : Wheel ℚ :=
  { angularVelocity := 20, brakeTorque := 10, driveTorque := 40, rotationAngle := 1 }

/-- A wheel over `ℚ` that spins slower than the body of `sampleVehicle`. -/
def slowWheel : Wheel ℚ :=
  { angularVelocity := 5, brakeTorque := 0, driveTorque := 150, rotationAngle := 2 }

/-- A two-wheel vehicle over `ℚ`: one wheel spins faster than the body, one slower. -/
def sampleVehicle : Vehicle ℚ :=
  { wheelRadius := 0.3, mass := 1200, wheelInertia := 1.0, muPeak := 1.0, slipOpt := 0.1
    linearSpeed := 3
    wheels := [fastWheel, slowWheel] }

/-- The wheel of a vehicle constructed with speed `5` when the stale radius read was `0`. -/
def restWheel : Wheel ℚ :=
  { angularVelocity := 0, brakeTorque := 0, driveTorque := 0, rotationAngle := 0 }

/-- The vehicle `Vehicle(5, 2)` over `ℚ` when the stale radius read was `0`. -/
def freshVehicle : Vehicle ℚ :=
  { wheelRadius := 0.3, mass := 1200, wheelInertia := 1.0, muPeak := 1.0, slipOpt := 0.1
    linearSpeed := 5
    wheels := [restWheel, restWheel] }

/-- A rational stand-in for `std::exp`, used to evaluate the definitions over `ℚ`. -/
def sampleExp (x : ℚ) : ℚ := 1 / (1 + x * x)

/-! ## States used for the constructor and for coasting -/

/-- The vehicle `Vehicle(5.0, 4)` over `ℚ` when the stale radius read was `0`. -/
def lockedVehicle : Vehicle ℚ :=
  { wheelRadius := 0.3, mass := 1200, wheelInertia := 1.0, muPeak := 1.0, slipOpt := 0.1
    linearSpeed := 5
    wheels := [restWheel, restWheel, restWheel, restWheel] }

/-- The wheel of `coastVehicle`: it turns at `5.0 / 0.3` and carries no torque. -/
def coastWheel : Wheel α :=
  { angularVelocity := 5.0 / 0.3, brakeTorque := 0, driveTorque := 0, rotationAngle := 0 }

/-- The 4-wheel vehicle with `mass = 1200`, `wheelRadius = 0.3`, `muPeak = 1.0`,
`wheelInertia = 1.0`, `linearSpeed = 5.0`, every wheel turning at `5.0 / 0.3` and no
torques. -/
def coastVehicle : Vehicle α :=
  { wheelRadius := 0.3, mass := 1200, wheelInertia := 1.0, muPeak := 1.0, slipOpt := 0.1
    linearSpeed := 5.0
    wheels := [coastWheel, coastWheel, coastWheel, coastWheel] }

/-- A state rolls freely when the body speed is not negative and every wheel turns forward
with surface speed equal to the body speed and with equal drive and brake torque. -/
def Vehicle.Rolling (v : Vehicle α) : Prop :=
  0 ≤ v.linearSpeed ∧
    ∀ w ∈ v.wheels, 0 ≤ w.angularVelocity ∧
      w.angularVelocity * v.wheelRadius = v.linearSpeed ∧ w.driveTorque = w.brakeTorque

/-- The rotation angle written by the second loop of `Vehicle::update` for the integrated
angle `x`: the `if (rotationAngle > 2.0 * M_PI)` statement. -/
def wrapAngle (pi x : α) : α := if x > 2.0 * pi then fmod x (2.0 * pi) else x

/-- A one-wheel vehicle with the default parameters whose wheel turns at `omega` with zero
torques and rotation angle `angle`, the body moving at the matching speed `omega * 0.3`. -/
def rollingVehicle (omega angle : α) : Vehicle α :=
  { wheelRadius := 0.3, mass := 1200, wheelInertia := 1.0, muPeak := 1.0, slipOpt := 0.1
    linearSpeed := omega * 0.3
    wheels := [{ angularVelocity := omega, brakeTorque := 0, driveTorque := 0,
                 rotationAngle := angle }] }

/-- The value `x mod 2π` of the specification: `x` minus the largest multiple of `2π` not
above it. -/
def modTwoPi (pi x : α) : α := x - (Int.floor (x / (2 * pi)) : α) * (2 * pi)

/-- The wheel that one iteration of the loop of the learned-model `TractionControl::update`
leaves at its index, given the slip and the body speed read for it and the wheel `w` found
there: the branches of the source with the clamps of the two setters applied. -/
def LearnedControl.wheelResult (c : LearnedControl α) (dt slip speed : α) (w : Wheel α) :
    Wheel α :=
  if c.modelLoaded then
    match c.model [slip, w.angularVelocity, speed, w.brakeTorque, w.driveTorque,
        0.0, 0.0, 0.0] with
    | InferenceResult.tuple predictedDriveTorque predictedBrakeTorque =>
      { w with
        brakeTorque := stdMax 0 (stdClamp predictedBrakeTorque 0.0 c.maxBrakeTorque)
        driveTorque := stdMax 0 (stdClamp predictedDriveTorque 0.0 c.maxDriveTorque) }
    | InferenceResult.tensor (predictedDriveTorque :: predictedBrakeTorque :: _) =>
      { w with
        brakeTorque := stdMax 0 (stdClamp predictedBrakeTorque 0.0 c.maxBrakeTorque)
        driveTorque := stdMax 0 (stdClamp predictedDriveTorque 0.0 c.maxDriveTorque) }
    | InferenceResult.tensor _ => w
    | InferenceResult.other => w
    | InferenceResult.error => w
  else
    if slip - c.desiredSlip > 0 then
      { w with
        brakeTorque :=
          stdMax 0 (stdMin c.maxBrakeTorque
            (w.brakeTorque + c.brakeRampRate * (slip - c.desiredSlip) * dt))
        driveTorque :=
          stdMax 0 (stdMax 0 (w.driveTorque - c.driveRampRate * (slip - c.desiredSlip) * dt)) }
    else
      { w with
        brakeTorque :=
          stdMax 0 (stdMax 0
            (w.brakeTorque - c.brakeRampRate * (-(slip - c.desiredSlip)) * dt))
        driveTorque :=
          stdMax 0 (stdMin c.maxDriveTorque
            (w.driveTorque + c.driveRampRate * (-(slip - c.desiredSlip)) * dt)) }

/-- A wheel over `ℚ` whose brake torque `300` is above the controller's maximum. -/
def hotWheel : Wheel ℚ :=
  { angularVelocity := 20, brakeTorque := 300, driveTorque := 40, rotationAngle := 1 }

/-- A one-wheel vehicle over `ℚ` carrying `hotWheel`. -/
def hotVehicle : Vehicle ℚ :=
  { wheelRadius := 0.3, mass := 1200, wheelInertia := 1.0, muPeak := 1.0, slipOpt := 0.1
    linearSpeed := 3
    wheels := [hotWheel] }

/-- A backend whose every inference call throws. -/
def failingBackend : List ℚ → InferenceResult ℚ := fun _ => InferenceResult.error

/-- A loader that succeeds and yields `failingBackend`. -/
def failingLoad : String → Option (List ℚ → InferenceResult ℚ) := fun _ => some failingBackend

/-- A non-empty model path. -/
def samplePath : String := "model.pt"

/-- The empty model path. -/
def emptyPath : String := ""

/-! ## Agreement up to rotation angle and `slipOpt` -/

/-- The fields of a wheel other than `rotationAngle`. -/
def Wheel.physical (w : Wheel α) : α × α × α :=
  (w.angularVelocity, w.brakeTorque, w.driveTorque)

/-- Two vehicle states agree on everything except the rotation angles of their wheels and
the parameter `slipOpt`: same parameters, same body speed, same number of wheels and, wheel
by wheel, same angular velocity, brake torque and drive torque. -/
def Vehicle.PhysAgree (v v' : Vehicle α) : Prop :=
  v.wheelRadius = v'.wheelRadius ∧ v.mass = v'.mass ∧ v.wheelInertia = v'.wheelInertia ∧
    v.muPeak = v'.muPeak ∧ v.linearSpeed = v'.linearSpeed ∧
    v.wheels.map Wheel.physical = v'.wheels.map Wheel.physical

instance (v v' : Vehicle α) : Decidable (v.PhysAgree v') := by
  unfold Vehicle.PhysAgree; infer_instance

/-- The sample vehicle with other rotation angles and another `slipOpt`. -/
def sampleVehicleTurned : Vehicle ℚ :=
  { wheelRadius := 0.3, mass := 1200, wheelInertia := 1.0, muPeak := 1.0, slipOpt := 0.7
    linearSpeed := 3
    wheels := [{ fastWheel with rotationAngle := 4 }, { slowWheel with rotationAngle := 0 }] }

/-- The 4-wheel vehicle with the default parameters moving at `5.0` with locked wheels. -/
def skidVehicle : Vehicle α :=
  { wheelRadius := 0.3, mass := 1200, wheelInertia := 1.0, muPeak := 1.0, slipOpt := 0.1
    linearSpeed := 5.0
    wheels := List.replicate 4
      { angularVelocity := 0, brakeTorque := 0, driveTorque := 0, rotationAngle := 0 } }

/-- A two-wheel vehicle over `ℚ` moving at `3` whose wheels both spin faster than the body. -/
def spinVehicle : Vehicle ℚ :=
  { wheelRadius := 0.3, mass := 1200, wheelInertia := 1.0, muPeak := 1.0, slipOpt := 0.1
    linearSpeed := 3
    wheels := [fastWheel, fastWheel] }

/-! ## Basic facts about the library functions -/

theorem lit_zero : (0.0 : α) = 0 := by norm_num

theorem lit_one : (1.0 : α) = 1 := by norm_num

theorem stdMax_eq_max (a b : α) : stdMax a b = max a b := by
  unfold stdMax
  split_ifs with h
  · exact (max_eq_right h.le).symm
  · exact (max_eq_left (not_lt.mp h)).symm

theorem stdMin_eq_min (a b : α) : stdMin a b = min a b := by
  unfold stdMin
  split_ifs with h
  · exact (min_eq_right h.le).symm
  · exact (min_eq_left (not_lt.mp h)).symm

theorem fabs_eq_abs (x : α) : fabs x = |x| := by
  unfold fabs
  split_ifs with h
  · exact (abs_of_neg h).symm
  · exact (abs_of_nonneg (not_lt.mp h)).symm

theorem stdMax_zero_nonneg (t : α) : 0 ≤ stdMax 0 t := by
  rw [stdMax_eq_max]; exact le_max_left 0 t

/-- An index the bounds check accepts designates a wheel. -/
theorem wheel_of_inRange (v : Vehicle α) (i : Int) (h0 : 0 ≤ i) (h1 : i < v.wheelCount) :
    ∃ w, v.wheels[i.toNat]? = some w := by
  have hlt : i.toNat < v.wheels.length := by
    unfold Vehicle.wheelCount at h1; omega
  exact ⟨v.wheels[i.toNat], List.getElem?_eq_getElem hlt⟩

/-! ## Slip ratio -/

/-- C1: for an index `i` with `0 ≤ i < wheelCount`, `computeSlipRatio i` is
`(angularVelocity_i * wheelRadius - linearSpeed) / max linearSpeed 0.001`, where
`angularVelocity_i` is read from the wheel stored at position `i`. -/
theorem computeSlipRatio_inRange (v : Vehicle α) (i : Int) (h0 : 0 ≤ i)
    (h1 : i < v.wheelCount) :
    ∃ w, v.wheels[i.toNat]? = some w ∧
      v.computeSlipRatio i
        = (w.angularVelocity * v.wheelRadius - v.linearSpeed) / max v.linearSpeed 0.001 := by
  obtain ⟨w, hw⟩ := wheel_of_inRange v i h0 h1
  refine ⟨w, hw, ?_⟩
  unfold Vehicle.computeSlipRatio
  rw [if_neg (by omega), hw]
  simp only [stdMax_eq_max]

theorem computeSlipRatio_inRange_witness :
    (0 : Int) ≤ 1 ∧ (1 : Int) < sampleVehicle.wheelCount ∧
    ∃ w, sampleVehicle.wheels[(1 : Int).toNat]? = some w ∧
      sampleVehicle.computeSlipRatio 1
        = (w.angularVelocity * sampleVehicle.wheelRadius - sampleVehicle.linearSpeed)
            / max sampleVehicle.linearSpeed 0.001 :=
  ⟨by decide, by decide, computeSlipRatio_inRange sampleVehicle 1 (by decide) (by decide)⟩

/-! ## Out-of-range indices -/

/-- C2: for an index outside `[0, wheelCount)`, `computeSlipRatio` returns exactly `0` and
`setBrakeTorque` and `setDriveTorque` return the vehicle unchanged, whatever the torque. -/
theorem outOfRange_absorbed (v : Vehicle α) (i : Int) (t : α)
    (h : i < 0 ∨ v.wheelCount ≤ i) :
    v.computeSlipRatio i = 0 ∧ v.setBrakeTorque i t = v ∧ v.setDriveTorque i t = v := by
  refine ⟨?_, ?_, ?_⟩
  · unfold Vehicle.computeSlipRatio
    rw [if_pos (by omega)]
  · unfold Vehicle.setBrakeTorque
    rw [if_neg (by omega)]
  · unfold Vehicle.setDriveTorque
    rw [if_neg (by omega)]

theorem outOfRange_absorbed_witness :
    ((2 : Int) < 0 ∨ sampleVehicle.wheelCount ≤ 2) ∧
    sampleVehicle.computeSlipRatio 2 = 0 ∧ sampleVehicle.setBrakeTorque 2 (-7) = sampleVehicle ∧
      sampleVehicle.setDriveTorque 2 (-7) = sampleVehicle :=
  ⟨by decide, outOfRange_absorbed sampleVehicle 2 (-7) (by decide)⟩

/-! ## Torque setters -/

theorem setBrakeTorque_wheels (v : Vehicle α) (i : Int) (t : α) (h0 : 0 ≤ i)
    (h1 : i < v.wheelCount) :
    (v.setBrakeTorque i t).wheels
      = List.modify (fun w => { w with brakeTorque := stdMax 0 t }) i.toNat v.wheels := by
  unfold Vehicle.setBrakeTorque
  rw [if_pos ⟨h0, h1⟩]

theorem setDriveTorque_wheels (v : Vehicle α) (i : Int) (t : α) (h0 : 0 ≤ i)
    (h1 : i < v.wheelCount) :
    (v.setDriveTorque i t).wheels
      = List.modify (fun w => { w with driveTorque := stdMax 0 t }) i.toNat v.wheels := by
  unfold Vehicle.setDriveTorque
  rw [if_pos ⟨h0, h1⟩]

/-- Both setters keep every vehicle-level field and the number of wheels. -/
theorem setBrakeTorque_fields (v : Vehicle α) (i : Int) (t : α) :
    (v.setBrakeTorque i t).wheelRadius = v.wheelRadius ∧
    (v.setBrakeTorque i t).mass = v.mass ∧
    (v.setBrakeTorque i t).wheelInertia = v.wheelInertia ∧
    (v.setBrakeTorque i t).muPeak = v.muPeak ∧
    (v.setBrakeTorque i t).slipOpt = v.slipOpt ∧
    (v.setBrakeTorque i t).linearSpeed = v.linearSpeed ∧
    (v.setBrakeTorque i t).wheels.length = v.wheels.length := by
  unfold Vehicle.setBrakeTorque
  split_ifs <;> simp

theorem setDriveTorque_fields (v : Vehicle α) (i : Int) (t : α) :
    (v.setDriveTorque i t).wheelRadius = v.wheelRadius ∧
    (v.setDriveTorque i t).mass = v.mass ∧
    (v.setDriveTorque i t).wheelInertia = v.wheelInertia ∧
    (v.setDriveTorque i t).muPeak = v.muPeak ∧
    (v.setDriveTorque i t).slipOpt = v.slipOpt ∧
    (v.setDriveTorque i t).linearSpeed = v.linearSpeed ∧
    (v.setDriveTorque i t).wheels.length = v.wheels.length := by
  unfold Vehicle.setDriveTorque
  split_ifs <;> simp

/-- C3: for an in-range index `i` holding the wheel `w` and any torque `t`,
`setBrakeTorque i t` stores `max 0 t` as the brake torque of wheel `i` and
`setDriveTorque i t` stores `max 0 t` as its drive torque; the stored value is not
negative; the other three fields of wheel `i`, every other wheel, the number of wheels and
every vehicle-level field are as before. -/
theorem setTorque_inRange (v : Vehicle α) (i : Int) (t : α) (w : Wheel α) (h0 : 0 ≤ i)
    (h1 : i < v.wheelCount) (hw : v.wheels[i.toNat]? = some w) :
    (0 ≤ max 0 t) ∧
    ((v.setBrakeTorque i t).wheels[i.toNat]? = some { w with brakeTorque := max 0 t } ∧
      (∀ j : Nat, j ≠ i.toNat → (v.setBrakeTorque i t).wheels[j]? = v.wheels[j]?) ∧
      (v.setBrakeTorque i t).wheels.length = v.wheels.length ∧
      (v.setBrakeTorque i t).linearSpeed = v.linearSpeed ∧
      (v.setBrakeTorque i t).wheelRadius = v.wheelRadius ∧
      (v.setBrakeTorque i t).mass = v.mass ∧
      (v.setBrakeTorque i t).wheelInertia = v.wheelInertia ∧
      (v.setBrakeTorque i t).muPeak = v.muPeak ∧
      (v.setBrakeTorque i t).slipOpt = v.slipOpt) ∧
    ((v.setDriveTorque i t).wheels[i.toNat]? = some { w with driveTorque := max 0 t } ∧
      (∀ j : Nat, j ≠ i.toNat → (v.setDriveTorque i t).wheels[j]? = v.wheels[j]?) ∧
      (v.setDriveTorque i t).wheels.length = v.wheels.length ∧
      (v.setDriveTorque i t).linearSpeed = v.linearSpeed ∧
      (v.setDriveTorque i t).wheelRadius = v.wheelRadius ∧
      (v.setDriveTorque i t).mass = v.mass ∧
      (v.setDriveTorque i t).wheelInertia = v.wheelInertia ∧
      (v.setDriveTorque i t).muPeak = v.muPeak ∧
      (v.setDriveTorque i t).slipOpt = v.slipOpt) := by
  obtain ⟨b1, b2, b3, b4, b5, b6, b7⟩ := setBrakeTorque_fields v i t
  obtain ⟨d1, d2, d3, d4, d5, d6, d7⟩ := setDriveTorque_fields v i t
  refine ⟨le_max_left 0 t, ⟨?_, ?_, b7, b6, b1, b2, b3, b4, b5⟩,
    ⟨?_, ?_, d7, d6, d1, d2, d3, d4, d5⟩⟩
  · rw [setBrakeTorque_wheels v i t h0 h1, List.getElem?_modify_eq, hw, stdMax_eq_max]
    rfl
  · intro j hj
    rw [setBrakeTorque_wheels v i t h0 h1, List.getElem?_modify_ne _ _ (Ne.symm hj)]
  · rw [setDriveTorque_wheels v i t h0 h1, List.getElem?_modify_eq, hw, stdMax_eq_max]
    rfl
  · intro j hj
    rw [setDriveTorque_wheels v i t h0 h1, List.getElem?_modify_ne _ _ (Ne.symm hj)]

theorem setTorque_inRange_witness :
    ((0 : Int) ≤ 1 ∧ (1 : Int) < sampleVehicle.wheelCount ∧
      sampleVehicle.wheels[(1 : Int).toNat]? = some slowWheel) ∧
    (0 ≤ max 0 (-7 : ℚ)) ∧
    ((sampleVehicle.setBrakeTorque 1 (-7)).wheels[(1 : Int).toNat]?
        = some { slowWheel with brakeTorque := max 0 (-7) } ∧
      (∀ j : Nat, j ≠ (1 : Int).toNat →
        (sampleVehicle.setBrakeTorque 1 (-7)).wheels[j]? = sampleVehicle.wheels[j]?) ∧
      (sampleVehicle.setBrakeTorque 1 (-7)).wheels.length = sampleVehicle.wheels.length ∧
      (sampleVehicle.setBrakeTorque 1 (-7)).linearSpeed = sampleVehicle.linearSpeed ∧
      (sampleVehicle.setBrakeTorque 1 (-7)).wheelRadius = sampleVehicle.wheelRadius ∧
      (sampleVehicle.setBrakeTorque 1 (-7)).mass = sampleVehicle.mass ∧
      (sampleVehicle.setBrakeTorque 1 (-7)).wheelInertia = sampleVehicle.wheelInertia ∧
      (sampleVehicle.setBrakeTorque 1 (-7)).muPeak = sampleVehicle.muPeak ∧
      (sampleVehicle.setBrakeTorque 1 (-7)).slipOpt = sampleVehicle.slipOpt) ∧
    ((sampleVehicle.setDriveTorque 1 (-7)).wheels[(1 : Int).toNat]?
        = some { slowWheel with driveTorque := max 0 (-7) } ∧
      (∀ j : Nat, j ≠ (1 : Int).toNat →
        (sampleVehicle.setDriveTorque 1 (-7)).wheels[j]? = sampleVehicle.wheels[j]?) ∧
      (sampleVehicle.setDriveTorque 1 (-7)).wheels.length = sampleVehicle.wheels.length ∧
      (sampleVehicle.setDriveTorque 1 (-7)).linearSpeed = sampleVehicle.linearSpeed ∧
      (sampleVehicle.setDriveTorque 1 (-7)).wheelRadius = sampleVehicle.wheelRadius ∧
      (sampleVehicle.setDriveTorque 1 (-7)).mass = sampleVehicle.mass ∧
      (sampleVehicle.setDriveTorque 1 (-7)).wheelInertia = sampleVehicle.wheelInertia ∧
      (sampleVehicle.setDriveTorque 1 (-7)).muPeak = sampleVehicle.muPeak ∧
      (sampleVehicle.setDriveTorque 1 (-7)).slipOpt = sampleVehicle.slipOpt) :=
  ⟨⟨by decide, by decide, rfl⟩,
    setTorque_inRange sampleVehicle 1 (-7) slowWheel (by decide) (by decide) rfl⟩

/-! ## Non-positive time step of the physics -/

/-- C4: for `dt ≤ 0`, `Vehicle::update dt` returns the state it was given: the speed and
every field of every wheel are unchanged. -/
theorem update_nonpos_dt (exp : α → α) (pi : α) (v : Vehicle α) (dt : α) (h : dt ≤ 0) :
    v.update exp pi dt = v := by
  unfold Vehicle.update
  rw [lit_zero, if_pos h]

theorem update_nonpos_dt_witness :
    (-(1 / 100) : ℚ) ≤ 0 ∧ sampleVehicle.update sampleExp 3 (-(1 / 100)) = sampleVehicle :=
  ⟨by norm_num, update_nonpos_dt sampleExp 3 sampleVehicle (-(1 / 100)) (by norm_num)⟩

/-! ## Non-negativity -/

/-- A property of all elements survives `List.modify` by a function that keeps it. -/
theorem forall_mem_modify {β : Type} (P : β → Prop) (f : β → β) (n : Nat) (l : List β)
    (hf : ∀ a ∈ l, P (f a)) (hl : ∀ a ∈ l, P a) : ∀ a ∈ List.modify f n l, P a := by
  intro a ha
  obtain ⟨m, hm⟩ := List.mem_iff_getElem?.mp ha
  rw [List.getElem?_modify] at hm
  cases hlm : l[m]? with
  | none => rw [hlm] at hm; simp at hm
  | some b =>
    rw [hlm] at hm
    have hb : b ∈ l := List.mem_iff_getElem?.mpr ⟨m, hlm⟩
    simp only [Option.map_eq_map, Option.map_some', Option.some.injEq] at hm
    by_cases hnm : n = m
    · rw [if_pos hnm] at hm; rw [← hm]; exact hf b hb
    · rw [if_neg hnm] at hm; rw [← hm]; exact hl b hb

/-- An invariant of the loop body is an invariant of a `foldl` loop. -/
theorem foldl_invariant {σ ι : Type} (P : σ → Prop) (f : σ → ι → σ)
    (hf : ∀ s i, P s → P (f s i)) (l : List ι) (s : σ) (hs : P s) : P (l.foldl f s) := by
  induction l generalizing s with
  | nil => exact hs
  | cons i l ih => exact ih (f s i) (hf s i hs)

theorem setBrakeTorque_nonNeg (v : Vehicle α) (i : Int) (t : α) (h : v.NonNeg) :
    (v.setBrakeTorque i t).NonNeg := by
  unfold Vehicle.setBrakeTorque
  split_ifs with hi
  · refine ⟨h.1, ?_⟩
    apply forall_mem_modify _ _ _ _ _ h.2
    intro a ha
    exact ⟨(h.2 a ha).1, stdMax_zero_nonneg t, (h.2 a ha).2.2⟩
  · exact h

theorem setDriveTorque_nonNeg (v : Vehicle α) (i : Int) (t : α) (h : v.NonNeg) :
    (v.setDriveTorque i t).NonNeg := by
  unfold Vehicle.setDriveTorque
  split_ifs with hi
  · refine ⟨h.1, ?_⟩
    apply forall_mem_modify _ _ _ _ _ h.2
    intro a ha
    exact ⟨(h.2 a ha).1, (h.2 a ha).2.1, stdMax_zero_nonneg t⟩
  · exact h

theorem clamp_nonneg (x : α) : 0 ≤ (if x < 0 then 0 else x) := by
  split_ifs with h
  · exact le_refl 0
  · exact not_lt.mp h

theorem clamp_eq_max (x : α) : (if x < 0 then 0 else x) = max 0 x := by
  split_ifs with h
  · exact (max_eq_left h.le).symm
  · exact (max_eq_right (not_lt.mp h)).symm

theorem bodySpeed_nonneg (exp : α → α) (v : Vehicle α) (dt : α) : 0 ≤ v.bodySpeed exp dt := by
  unfold Vehicle.bodySpeed
  simp only [lit_zero]
  split_ifs with h
  · exact le_refl 0
  · exact not_lt.mp h

theorem wheelStep_angularVelocity_nonneg (exp : α → α) (pi : α) (v : Vehicle α) (dt : α)
    (w : Wheel α) : 0 ≤ (v.wheelStep exp pi dt w).angularVelocity := by
  unfold Vehicle.wheelStep
  simp only [lit_zero]
  exact clamp_nonneg _

theorem wheelStep_torques (exp : α → α) (pi : α) (v : Vehicle α) (dt : α) (w : Wheel α) :
    (v.wheelStep exp pi dt w).brakeTorque = w.brakeTorque ∧
      (v.wheelStep exp pi dt w).driveTorque = w.driveTorque := by
  unfold Vehicle.wheelStep
  exact ⟨rfl, rfl⟩

theorem update_nonNeg (exp : α → α) (pi : α) (v : Vehicle α) (dt : α) (h : v.NonNeg) :
    (v.update exp pi dt).NonNeg := by
  unfold Vehicle.update
  split_ifs with hdt
  · exact h
  · refine ⟨bodySpeed_nonneg exp v dt, ?_⟩
    intro w hw
    obtain ⟨w0, hw0, rfl⟩ := List.mem_map.mp hw
    obtain ⟨hb, hd⟩ := wheelStep_torques exp pi
      { v with linearSpeed := v.bodySpeed exp dt } dt w0
    refine ⟨wheelStep_angularVelocity_nonneg exp pi _ dt w0, ?_, ?_⟩
    · rw [hb]; exact (h.2 w0 hw0).2.1
    · rw [hd]; exact (h.2 w0 hw0).2.2

theorem updateWheel_nonNeg (c : TractionControl α) (dt : α) (v : Vehicle α) (i : Nat)
    (h : v.NonNeg) : (c.updateWheel dt v i).NonNeg := by
  unfold TractionControl.updateWheel
  cases v.wheels[i]? with
  | none => exact h
  | some w =>
    simp only []
    split_ifs
    · exact setDriveTorque_nonNeg _ _ _ (setBrakeTorque_nonNeg _ _ _ h)
    · exact setDriveTorque_nonNeg _ _ _ (setBrakeTorque_nonNeg _ _ _ h)

theorem controller_nonNeg (c : TractionControl α) (dt : α) (v : Vehicle α) (h : v.NonNeg) :
    (c.update v dt).NonNeg := by
  unfold TractionControl.update
  exact foldl_invariant Vehicle.NonNeg (c.updateWheel dt)
    (fun s i hs => updateWheel_nonNeg c dt s i hs) _ v h

/-- C5: non-negativity of the body speed and of every wheel's angular velocity, brake
torque and drive torque is preserved by `Vehicle::update` for any `dt`, by
`setBrakeTorque` and `setDriveTorque` for any index and any torque, and by
`TractionControl::update` for any `dt` and any controller (in particular any
`desiredSlip`). -/
theorem nonNeg_invariant (exp : α → α) (pi : α) (v : Vehicle α) (h : v.NonNeg) :
    (∀ dt : α, (v.update exp pi dt).NonNeg) ∧
    (∀ (i : Int) (t : α), (v.setBrakeTorque i t).NonNeg) ∧
    (∀ (i : Int) (t : α), (v.setDriveTorque i t).NonNeg) ∧
    (∀ (c : TractionControl α) (dt : α), (c.update v dt).NonNeg) :=
  ⟨fun dt => update_nonNeg exp pi v dt h,
   fun i t => setBrakeTorque_nonNeg v i t h,
   fun i t => setDriveTorque_nonNeg v i t h,
   fun c dt => controller_nonNeg c dt v h⟩

theorem sampleVehicle_nonNeg : sampleVehicle.NonNeg := by
  simp [Vehicle.NonNeg, sampleVehicle, fastWheel, slowWheel]

theorem nonNeg_invariant_witness :
    sampleVehicle.NonNeg ∧
    (∀ dt : ℚ, (sampleVehicle.update sampleExp 3 dt).NonNeg) ∧
    (∀ (i : Int) (t : ℚ), (sampleVehicle.setBrakeTorque i t).NonNeg) ∧
    (∀ (i : Int) (t : ℚ), (sampleVehicle.setDriveTorque i t).NonNeg) ∧
    (∀ (c : TractionControl ℚ) (dt : ℚ), (c.update sampleVehicle dt).NonNeg) :=
  ⟨sampleVehicle_nonNeg, nonNeg_invariant sampleExp 3 sampleVehicle sampleVehicle_nonNeg⟩

/-! ## The ramp law of the controller -/

theorem SameFrame.refl (v : Vehicle α) : v.SameFrame v :=
  ⟨rfl, rfl, rfl, rfl, rfl, rfl, rfl⟩

theorem SameFrame.trans {a b c : Vehicle α} (h1 : a.SameFrame b) (h2 : b.SameFrame c) :
    a.SameFrame c := by
  obtain ⟨p1, p2, p3, p4, p5, p6, p7⟩ := h1
  obtain ⟨q1, q2, q3, q4, q5, q6, q7⟩ := h2
  exact ⟨q1.trans p1, q2.trans p2, q3.trans p3, q4.trans p4, q5.trans p5, q6.trans p6,
    q7.trans p7⟩

/-- The slip ratio of a wheel depends only on that wheel and on the vehicle-level fields. -/
theorem computeSlipRatio_congr (v v' : Vehicle α) (i : Nat) (hf : v.SameFrame v')
    (hw : v'.wheels[i]? = v.wheels[i]?) :
    v'.computeSlipRatio (i : Int) = v.computeSlipRatio (i : Int) := by
  obtain ⟨p1, p2, p3, p4, p5, p6, p7⟩ := hf
  unfold Vehicle.computeSlipRatio Vehicle.wheelCount
  simp only [Int.toNat_ofNat, hw, p1, p6, p7]

/-- One iteration of the controller loop at an index holding the wheel `w`. -/
theorem updateWheel_spec (c : TractionControl α) (dt : α) (v : Vehicle α) (i : Nat)
    (w : Wheel α) (hw : v.wheels[i]? = some w) :
    v.SameFrame (c.updateWheel dt v i) ∧
    (c.updateWheel dt v i).wheels[i]?
      = some (c.wheelResult dt (v.computeSlipRatio (i : Int)) w) ∧
    ∀ j : Nat, j ≠ i → (c.updateWheel dt v i).wheels[j]? = v.wheels[j]? := by
  have hlt : i < v.wheels.length := by
    by_contra hcon
    rw [List.getElem?_eq_none (not_lt.mp hcon)] at hw
    exact Option.noConfusion hw
  have h0 : (0 : Int) ≤ (i : Int) := Int.ofNat_nonneg i
  have h1 : (i : Int) < v.wheelCount := by unfold Vehicle.wheelCount; omega
  have key : ∀ b d : α,
      v.SameFrame ((v.setBrakeTorque (i : Int) b).setDriveTorque (i : Int) d) ∧
      ((v.setBrakeTorque (i : Int) b).setDriveTorque (i : Int) d).wheels[i]?
        = some { w with brakeTorque := stdMax 0 b, driveTorque := stdMax 0 d } ∧
      ∀ j : Nat, j ≠ i →
        ((v.setBrakeTorque (i : Int) b).setDriveTorque (i : Int) d).wheels[j]?
          = v.wheels[j]? := by
    intro b d
    have hb := setBrakeTorque_fields v (i : Int) b
    have hd := setDriveTorque_fields (v.setBrakeTorque (i : Int) b) (i : Int) d
    have h1b : (i : Int) < (v.setBrakeTorque (i : Int) b).wheelCount := by
      unfold Vehicle.wheelCount; rw [hb.2.2.2.2.2.2]; omega
    have hsf : v.SameFrame ((v.setBrakeTorque (i : Int) b).setDriveTorque (i : Int) d) :=
      SameFrame.trans (a := v) (b := v.setBrakeTorque (i : Int) b) hb hd
    refine ⟨hsf, ?_, ?_⟩
    · rw [setDriveTorque_wheels _ _ _ h0 h1b, setBrakeTorque_wheels _ _ _ h0 h1,
        Int.toNat_ofNat, List.getElem?_modify_eq, List.getElem?_modify_eq, hw]
      rfl
    · intro j hj
      rw [setDriveTorque_wheels _ _ _ h0 h1b, setBrakeTorque_wheels _ _ _ h0 h1,
        Int.toNat_ofNat, List.getElem?_modify_ne _ _ (Ne.symm hj),
        List.getElem?_modify_ne _ _ (Ne.symm hj)]
  unfold TractionControl.updateWheel TractionControl.wheelResult
  rw [hw]
  simp only [lit_zero]
  split_ifs with he
  · exact key _ _
  · exact key _ _

/-- The controller loop after its first `k` iterations: the first `k` wheels carry their
result, computed from the slip and the wheel of the initial state; the others are
untouched. -/
theorem controller_loop (c : TractionControl α) (dt : α) (v : Vehicle α) (k : Nat)
    (hk : k ≤ v.wheels.length) :
    v.SameFrame ((List.range k).foldl (c.updateWheel dt) v) ∧
    ∀ j : Nat, ((List.range k).foldl (c.updateWheel dt) v).wheels[j]?
      = if j < k then
          (v.wheels[j]?).map (fun w => c.wheelResult dt (v.computeSlipRatio (j : Int)) w)
        else v.wheels[j]? := by
  induction k with
  | zero =>
    refine ⟨SameFrame.refl v, ?_⟩
    intro j
    simp
  | succ k ih =>
    obtain ⟨hsf, hget⟩ := ih (by omega)
    have hlt : k < v.wheels.length := by omega
    have hwk : ((List.range k).foldl (c.updateWheel dt) v).wheels[k]?
        = some (v.wheels[k]) := by
      rw [hget k, if_neg (lt_irrefl k), List.getElem?_eq_getElem hlt]
    have hslip : ((List.range k).foldl (c.updateWheel dt) v).computeSlipRatio (k : Int)
        = v.computeSlipRatio (k : Int) := by
      apply computeSlipRatio_congr v _ k hsf
      rw [hwk, List.getElem?_eq_getElem hlt]
    obtain ⟨s1, s2, s3⟩ := updateWheel_spec c dt _ k _ hwk
    rw [List.range_succ, List.foldl_append, List.foldl_cons, List.foldl_nil]
    refine ⟨SameFrame.trans hsf s1, ?_⟩
    intro j
    by_cases hjk : j = k
    · subst hjk
      rw [s2, hslip, if_pos (Nat.lt_succ_self j), List.getElem?_eq_getElem hlt]
      rfl
    · rw [s3 j hjk, hget j]
      by_cases hj : j < k
      · rw [if_pos hj, if_pos (by omega)]
      · rw [if_neg hj, if_neg (by omega)]

/-- The controller as a whole: the frame of the vehicle is kept and every wheel is replaced
by its result for the slip read on the initial state. -/
theorem controller_spec (c : TractionControl α) (dt : α) (v : Vehicle α) :
    v.SameFrame (c.update v dt) ∧
    ∀ (i : Nat) (w : Wheel α), v.wheels[i]? = some w →
      (c.update v dt).wheels[i]?
        = some (c.wheelResult dt (v.computeSlipRatio (i : Int)) w) := by
  obtain ⟨hsf, hget⟩ := controller_loop c dt v v.wheels.length (le_refl _)
  unfold TractionControl.update
  refine ⟨hsf, ?_⟩
  intro i w hw
  have hlt : i < v.wheels.length := by
    by_contra hcon
    rw [List.getElem?_eq_none (not_lt.mp hcon)] at hw
    exact Option.noConfusion hw
  rw [hget i, if_pos hlt, hw]
  rfl

/-- The result of the source for the default constants is the reference ramp law. -/
theorem wheelResult_eq_rampLaw (d dt slip : α) (w : Wheel α) :
    (TractionControl.new d).wheelResult dt slip w = rampLaw d dt slip w := by
  have h200 : (200.0 : α) = 200 := by norm_num
  have h150 : (150.0 : α) = 150 := by norm_num
  have h500 : (500.0 : α) = 500 := by norm_num
  have h300 : (300.0 : α) = 300 := by norm_num
  unfold TractionControl.wheelResult rampLaw TractionControl.new
  simp only [h200, h150, h500, h300, stdMax_eq_max, stdMin_eq_min]
  split_ifs with he
  · congr 1
    exact max_eq_right (le_max_left _ _)
  · congr 1
    exact max_eq_right (le_max_left _ _)

/-- C6: `TractionControl::update` with the default constants is the reference ramp law
applied to every wheel independently: the wheel at each index `i` becomes
`rampLaw desiredSlip dt (computeSlipRatio i) w` for the wheel `w` found there, the slip
being read on the state before the call; the body speed, the parameters and the number of
wheels are unchanged, and so are every angular velocity and rotation angle. -/
theorem controller_is_rampLaw (d dt : α) (v : Vehicle α) :
    ((TractionControl.new d).update v dt).linearSpeed = v.linearSpeed ∧
    ((TractionControl.new d).update v dt).wheels.length = v.wheels.length ∧
    ((TractionControl.new d).update v dt).wheelRadius = v.wheelRadius ∧
    ((TractionControl.new d).update v dt).mass = v.mass ∧
    ((TractionControl.new d).update v dt).wheelInertia = v.wheelInertia ∧
    ((TractionControl.new d).update v dt).muPeak = v.muPeak ∧
    ((TractionControl.new d).update v dt).slipOpt = v.slipOpt ∧
    ∀ (i : Nat) (w : Wheel α), v.wheels[i]? = some w →
      ((TractionControl.new d).update v dt).wheels[i]?
          = some (rampLaw d dt (v.computeSlipRatio (i : Int)) w) ∧
        (rampLaw d dt (v.computeSlipRatio (i : Int)) w).angularVelocity = w.angularVelocity ∧
        (rampLaw d dt (v.computeSlipRatio (i : Int)) w).rotationAngle = w.rotationAngle := by
  obtain ⟨⟨p1, p2, p3, p4, p5, p6, p7⟩, hw⟩ := controller_spec (TractionControl.new d) dt v
  refine ⟨p6, p7, p1, p2, p3, p4, p5, ?_⟩
  intro i w hiw
  refine ⟨?_, ?_, ?_⟩
  · rw [hw i w hiw, wheelResult_eq_rampLaw]
  · unfold rampLaw; simp only []; split_ifs <;> rfl
  · unfold rampLaw; simp only []; split_ifs <;> rfl

theorem controller_is_rampLaw_witness :
    ((TractionControl.new (1 / 10 : ℚ)).update sampleVehicle (1 / 100)).wheels[0]?
      = some { angularVelocity := 20, brakeTorque := 29 / 2, driveTorque := 373 / 10,
               rotationAngle := 1 } ∧
    ((TractionControl.new (1 / 10 : ℚ)).update sampleVehicle (1 / 100)).wheels[1]?
      = some { angularVelocity := 5, brakeTorque := 0, driveTorque := 150,
               rotationAngle := 2 } ∧
    ((TractionControl.new (1 / 10 : ℚ)).update sampleVehicle (1 / 100)).wheels.length = 2 ∧
    ((TractionControl.new (1 / 10 : ℚ)).update sampleVehicle (1 / 100)).linearSpeed = 3 := by
  obtain ⟨h1, h2, -, -, -, -, -, hw⟩ :=
    controller_is_rampLaw (1 / 10 : ℚ) (1 / 100) sampleVehicle
  have e0 := (hw 0 fastWheel rfl).1
  have e1 := (hw 1 slowWheel rfl).1
  have s0 : sampleVehicle.computeSlipRatio ((0 : Nat) : Int) = 1 := by
    norm_num [Vehicle.computeSlipRatio, Vehicle.wheelCount, sampleVehicle, stdMax, fastWheel,
      slowWheel]
  have s1 : sampleVehicle.computeSlipRatio ((1 : Nat) : Int) = -(1 / 2) := by
    norm_num [Vehicle.computeSlipRatio, Vehicle.wheelCount, sampleVehicle, stdMax, fastWheel,
      slowWheel]
  have r0 : rampLaw (1 / 10 : ℚ) (1 / 100) 1 fastWheel
      = { angularVelocity := 20, brakeTorque := 29 / 2, driveTorque := 373 / 10,
          rotationAngle := 1 } := by
    norm_num [rampLaw, fastWheel, slowWheel]
  have r1 : rampLaw (1 / 10 : ℚ) (1 / 100) (-(1 / 2)) slowWheel
      = { angularVelocity := 5, brakeTorque := 0, driveTorque := 150,
          rotationAngle := 2 } := by
    norm_num [rampLaw, fastWheel, slowWheel]
  rw [s0, r0] at e0
  rw [s1, r1] at e1
  exact ⟨e0, e1, h2, h1⟩

/-! ## Torque bounds -/

theorem wheelResult_bounded (c : TractionControl α) (dt slip : α) (w : Wheel α)
    (hdt : 0 ≤ dt) (hB : 0 ≤ c.maxBrakeTorque) (hD : 0 ≤ c.maxDriveTorque)
    (hbr : 0 ≤ c.brakeRampRate) (hdr : 0 ≤ c.driveRampRate)
    (hw : w.TorqueBounded c.maxBrakeTorque c.maxDriveTorque) :
    (c.wheelResult dt slip w).TorqueBounded c.maxBrakeTorque c.maxDriveTorque := by
  obtain ⟨⟨hb0, hb1⟩, ⟨hd0, hd1⟩⟩ := hw
  unfold TractionControl.wheelResult Wheel.TorqueBounded
  simp only [stdMax_eq_max, stdMin_eq_min]
  split_ifs with he
  · have hdec : 0 ≤ c.driveRampRate * (slip - c.desiredSlip) * dt :=
      mul_nonneg (mul_nonneg hdr he.le) hdt
    refine ⟨⟨le_max_left _ _, max_le hB (min_le_left _ _)⟩,
      ⟨le_max_left _ _, max_le hD (max_le hD ?_)⟩⟩
    linarith
  · have hmag : 0 ≤ -(slip - c.desiredSlip) := by
      have := not_lt.mp he
      linarith
    have hdec : 0 ≤ c.brakeRampRate * (-(slip - c.desiredSlip)) * dt :=
      mul_nonneg (mul_nonneg hbr hmag) hdt
    refine ⟨⟨le_max_left _ _, max_le hB (max_le hB ?_)⟩,
      ⟨le_max_left _ _, max_le hD (min_le_left _ _)⟩⟩
    linarith

theorem controller_torqueBounded (c : TractionControl α) (dt : α) (v : Vehicle α)
    (hdt : 0 ≤ dt) (hB : 0 ≤ c.maxBrakeTorque) (hD : 0 ≤ c.maxDriveTorque)
    (hbr : 0 ≤ c.brakeRampRate) (hdr : 0 ≤ c.driveRampRate)
    (hv : v.TorqueBounded c.maxBrakeTorque c.maxDriveTorque) :
    (c.update v dt).TorqueBounded c.maxBrakeTorque c.maxDriveTorque := by
  obtain ⟨hsf, hres⟩ := controller_spec c dt v
  intro w hw
  obtain ⟨m, hm⟩ := List.mem_iff_getElem?.mp hw
  have hlen : (c.update v dt).wheels.length = v.wheels.length := hsf.2.2.2.2.2.2
  have hlt : m < v.wheels.length := by
    by_contra hcon
    rw [List.getElem?_eq_none (by omega)] at hm
    exact Option.noConfusion hm
  have hold : v.wheels[m]? = some v.wheels[m] := List.getElem?_eq_getElem hlt
  rw [hres m _ hold] at hm
  have hmem : v.wheels[m] ∈ v.wheels := List.getElem_mem hlt
  rw [← Option.some.inj hm]
  exact wheelResult_bounded c dt _ _ hdt hB hD hbr hdr (hv _ hmem)

theorem update_torqueBounded (exp : α → α) (pi : α) (v : Vehicle α) (dt B D : α)
    (hv : v.TorqueBounded B D) : (v.update exp pi dt).TorqueBounded B D := by
  unfold Vehicle.update
  split_ifs with hdt
  · exact hv
  · intro w hw
    obtain ⟨w0, hw0, rfl⟩ := List.mem_map.mp hw
    obtain ⟨hb, hd⟩ := wheelStep_torques exp pi
      { v with linearSpeed := v.bodySpeed exp dt } dt w0
    unfold Wheel.TorqueBounded
    rw [hb, hd]
    exact hv w0 hw0

theorem new_constants (d : α) :
    (TractionControl.new d).maxBrakeTorque = 200 ∧ (TractionControl.new d).maxDriveTorque = 150 ∧
      (TractionControl.new d).brakeRampRate = 500 ∧ (TractionControl.new d).driveRampRate = 300 := by
  unfold TractionControl.new
  norm_num

theorem physicsDt_pos : (0 : α) < physicsDt := by
  unfold physicsDt; norm_num

theorem subStep_torqueBounded (exp : α → α) (pi d : α) (v : Vehicle α)
    (hv : v.TorqueBounded 200 150) :
    (subStep exp pi (TractionControl.new d) v).TorqueBounded 200 150 := by
  obtain ⟨c1, c2, c3, c4⟩ := new_constants d
  unfold subStep
  apply update_torqueBounded
  have h := controller_torqueBounded (TractionControl.new d) physicsDt v physicsDt_pos.le
    (by rw [c1]; norm_num) (by rw [c2]; norm_num) (by rw [c3]; norm_num)
    (by rw [c4]; norm_num) (by rw [c1, c2]; exact hv)
  rw [c1, c2] at h
  exact h

theorem new_torqueBounded (g s : α) (n : Int) (v : Vehicle α)
    (h : Vehicle.new g s n = some v) : v.TorqueBounded 200 150 := by
  unfold Vehicle.new at h
  by_cases hn : n < 0
  · rw [if_pos hn] at h
    exact Option.noConfusion h
  · rw [if_neg hn] at h
    simp only [Option.some.injEq] at h
    subst h
    intro w hw
    have hw2 := List.eq_of_mem_replicate hw
    subst hw2
    unfold Wheel.TorqueBounded
    norm_num

/-- An invariant of the sub-step is an invariant of the inner loop of `Simulation::run`. -/
theorem drain_invariant (exp : α → α) (pi : α) (tc : TractionControl α)
    (P : Vehicle α → Prop) (hP : ∀ v, P v → P (subStep exp pi tc v)) (s : SimState α)
    (hs : P s.vehicle) : P (drain exp pi tc s).vehicle := by
  induction s using drain.induct exp pi tc with
  | case1 s h ih =>
    rw [drain, dif_pos h]
    exact ih (hP _ hs)
  | case2 s h =>
    rw [drain, dif_neg h]
    exact hs

/-- The inner loop runs the sub-step once per counted step. -/
theorem drain_vehicle (exp : α → α) (pi : α) (tc : TractionControl α) (s : SimState α) :
    ∃ k : Nat, (drain exp pi tc s).steps = s.steps + k ∧
      (drain exp pi tc s).vehicle = (subStep exp pi tc)^[k] s.vehicle := by
  induction s using drain.induct exp pi tc with
  | case1 s h ih =>
    obtain ⟨k, hk1, hk2⟩ := ih
    refine ⟨k + 1, ?_, ?_⟩
    · rw [drain, dif_pos h, hk1]; simp only []; omega
    · rw [drain, dif_pos h, hk2, Function.iterate_succ_apply]
  | case2 s h =>
    refine ⟨0, ?_, ?_⟩
    · rw [drain, dif_neg h]; rfl
    · rw [drain, dif_neg h]; rfl

/-- The vehicle held by `Simulation::run` is the initial one after as many sub-steps as the
loop has counted. -/
theorem run_vehicle (exp : α → α) (pi : α) (tc : TractionControl α) (v : Vehicle α)
    (frameTimes : List α) :
    (run exp pi tc v frameTimes).vehicle
      = (subStep exp pi tc)^[(run exp pi tc v frameTimes).steps] v := by
  unfold run
  apply foldl_invariant
    (fun s : SimState α => s.vehicle = (subStep exp pi tc)^[s.steps] v)
  · intro s f hs
    unfold frame
    obtain ⟨k, hk1, hk2⟩ :=
      drain_vehicle exp pi tc { s with accumulator := s.accumulator + f }
    simp only [] at hk1 hk2
    rw [hk1, hk2, hs, ← Function.iterate_add_apply, Nat.add_comm]
  · rfl

/-- C7: for every `dt ≥ 0`, `TractionControl::update` maps a state whose wheels all have
`0 ≤ brakeTorque ≤ 200` and `0 ≤ driveTorque ≤ 150` to such a state; hence, starting from
a freshly constructed vehicle, the bounds hold after every number of sub-steps of the
simulation loop, also between the controller update and the vehicle update of the next
sub-step, and in the state `Simulation::run` holds after any sequence of frames. -/
theorem torque_bounds_invariant (exp : α → α) (pi d : α) :
    (∀ (dt : α) (v : Vehicle α), 0 ≤ dt → v.TorqueBounded 200 150 →
      ((TractionControl.new d).update v dt).TorqueBounded 200 150) ∧
    (∀ (g s : α) (n : Int) (v0 : Vehicle α), Vehicle.new g s n = some v0 →
      (∀ k : Nat,
        ((subStep exp pi (TractionControl.new d))^[k] v0).TorqueBounded 200 150 ∧
        ((TractionControl.new d).update ((subStep exp pi (TractionControl.new d))^[k] v0)
          physicsDt).TorqueBounded 200 150) ∧
      (∀ frameTimes : List α,
        (run exp pi (TractionControl.new d) v0 frameTimes).vehicle.TorqueBounded 200 150)) := by
  obtain ⟨c1, c2, c3, c4⟩ := new_constants d
  have hctrl : ∀ (dt : α) (v : Vehicle α), 0 ≤ dt → v.TorqueBounded 200 150 →
      ((TractionControl.new d).update v dt).TorqueBounded 200 150 := by
    intro dt v hdt hv
    have h := controller_torqueBounded (TractionControl.new d) dt v hdt
      (by rw [c1]; norm_num) (by rw [c2]; norm_num) (by rw [c3]; norm_num)
      (by rw [c4]; norm_num) (by rw [c1, c2]; exact hv)
    rw [c1, c2] at h
    exact h
  refine ⟨hctrl, ?_⟩
  intro g s n v0 hnew
  have h0 := new_torqueBounded g s n v0 hnew
  have hiter : ∀ k : Nat,
      ((subStep exp pi (TractionControl.new d))^[k] v0).TorqueBounded 200 150 := by
    intro k
    induction k with
    | zero => exact h0
    | succ k ih =>
      rw [Function.iterate_succ_apply']
      exact subStep_torqueBounded exp pi d _ ih
  refine ⟨fun k => ⟨hiter k, hctrl _ _ physicsDt_pos.le (hiter k)⟩, ?_⟩
  intro frameTimes
  rw [run_vehicle]
  exact hiter _

theorem sampleVehicle_torqueBounded : sampleVehicle.TorqueBounded 200 150 := by
  simp [Vehicle.TorqueBounded, Wheel.TorqueBounded, sampleVehicle, fastWheel, slowWheel]
  norm_num

theorem freshVehicle_new : Vehicle.new (0 : ℚ) 5 2 = some freshVehicle := by
  norm_num [Vehicle.new, freshVehicle, restWheel, List.replicate]

theorem torque_bounds_invariant_witness :
    ((0 : ℚ) ≤ 1 / 100 ∧ sampleVehicle.TorqueBounded 200 150 ∧
      ((TractionControl.new (1 / 10 : ℚ)).update sampleVehicle (1 / 100)).TorqueBounded
        200 150) ∧
    (Vehicle.new (0 : ℚ) 5 2 = some freshVehicle ∧
      ((subStep sampleExp 3 (TractionControl.new (1 / 10 : ℚ)))^[7]
        freshVehicle).TorqueBounded 200 150 ∧
      (run sampleExp 3 (TractionControl.new (1 / 10 : ℚ)) freshVehicle
        [3 / 1000, 21 / 1000, 5 / 100]).vehicle.TorqueBounded 200 150) :=
  ⟨⟨by norm_num, sampleVehicle_torqueBounded,
      (torque_bounds_invariant sampleExp 3 (1 / 10 : ℚ)).1 (1 / 100) sampleVehicle
        (by norm_num) sampleVehicle_torqueBounded⟩,
    freshVehicle_new,
    (((torque_bounds_invariant sampleExp 3 (1 / 10 : ℚ)).2 0 5 2 freshVehicle
      freshVehicle_new).1 7).1,
    ((torque_bounds_invariant sampleExp 3 (1 / 10 : ℚ)).2 0 5 2 freshVehicle
      freshVehicle_new).2 _⟩

/-! ## The body-force pass of `Vehicle::update` -/

theorem bodyForceStep_eq_add (exp : α → α) (v : Vehicle α) (acc : α) (i : Nat) :
    v.bodyForceStep exp acc i = acc + v.wheelForce exp i := by
  unfold Vehicle.wheelForce Vehicle.bodyForceStep
  cases v.wheels[i]? with
  | none => simp
  | some w => simp

theorem foldl_add_eq_sum (g : Nat → α) (n : Nat) (a : α) :
    (List.range n).foldl (fun acc i => acc + g i) a = a + ∑ i in Finset.range n, g i := by
  induction n with
  | zero => simp
  | succ n ih =>
    rw [List.range_succ, List.foldl_append, List.foldl_cons, List.foldl_nil, ih,
      Finset.sum_range_succ, add_assoc]

theorem totalForce_eq_sum (exp : α → α) (v : Vehicle α) :
    v.totalForce exp = ∑ i in Finset.range v.wheels.length, v.wheelForce exp i := by
  unfold Vehicle.totalForce
  have hfun : v.bodyForceStep exp = fun acc i => acc + v.wheelForce exp i := by
    funext acc i
    exact bodyForceStep_eq_add exp v acc i
  rw [hfun, foldl_add_eq_sum, lit_zero, zero_add]

theorem wheelForce_inRange (exp : α → α) (v : Vehicle α) (i : Nat) (h : i < v.wheels.length) :
    v.wheelForce exp i
      = (if v.wheels[i].angularVelocity * v.wheelRadius ≥ v.linearSpeed then 1 else -1)
          * v.muPeak * (1 - exp (-10 * |v.computeSlipRatio (i : Int)|))
          * (v.mass * 9.81 / (v.wheels.length : α)) := by
  have h10 : (10.0 : α) = 10 := by norm_num
  unfold Vehicle.wheelForce Vehicle.bodyForceStep
  rw [List.getElem?_eq_getElem h]
  simp only [lit_zero, lit_one, h10, fabs_eq_abs, zero_add, ge_iff_le, sub_nonneg]
  split_ifs <;> ring

theorem linearSpeed_after_update (exp : α → α) (pi : α) (v : Vehicle α) (dt : α) (hdt : 0 < dt) :
    (v.update exp pi dt).linearSpeed = v.bodySpeed exp dt := by
  unfold Vehicle.update
  rw [lit_zero, if_neg (not_le.mpr hdt)]

/-- C8: for `dt > 0`, `mass > 0` and at least one wheel, `Vehicle::update dt` sets the body
speed to `max 0 (v + dt * (Σ_i sign_i * muPeak * (1 - exp (-10 * |slip_i|)) *
(mass * 9.81 / wheelCount)) / mass)`, with `v` and `slip_i = computeSlipRatio i` read on
the state before the call and `sign_i = 1` if `angularVelocity_i * wheelRadius ≥ v`,
else `-1`; the sum runs over the wheel indices. -/
theorem update_linearSpeed (exp : α → α) (pi : α) (v : Vehicle α) (dt : α) (hdt : 0 < dt)
    (hm : 0 < v.mass) (hn : 0 < v.wheels.length) :
    (v.update exp pi dt).linearSpeed
      = max 0 (v.linearSpeed + dt *
          (∑ i : Fin v.wheels.length,
            (if v.wheels[i].angularVelocity * v.wheelRadius ≥ v.linearSpeed then 1 else -1)
              * v.muPeak * (1 - exp (-10 * |v.computeSlipRatio ((i : Nat) : Int)|))
              * (v.mass * 9.81 / (v.wheels.length : α))) / v.mass) := by
  rw [linearSpeed_after_update exp pi v dt hdt]
  unfold Vehicle.bodySpeed
  simp only [lit_zero]
  rw [clamp_eq_max, totalForce_eq_sum, Finset.sum_range]
  have hterm : ∀ i : Fin v.wheels.length, v.wheelForce exp (i : Nat)
      = (if v.wheels[i].angularVelocity * v.wheelRadius ≥ v.linearSpeed then 1 else -1)
          * v.muPeak * (1 - exp (-10 * |v.computeSlipRatio ((i : Nat) : Int)|))
          * (v.mass * 9.81 / (v.wheels.length : α)) :=
    fun i => wheelForce_inRange exp v i i.isLt
  simp only [hterm]
  congr 1
  ring

theorem update_linearSpeed_witness :
    (0 : ℚ) < 1 / 100 ∧ 0 < sampleVehicle.mass ∧ 0 < sampleVehicle.wheels.length ∧
    (sampleVehicle.update sampleExp 3 (1 / 100)).linearSpeed = 6305343 / 2100800 := by
  have hm : 0 < sampleVehicle.mass := by norm_num [sampleVehicle]
  have hn : 0 < sampleVehicle.wheels.length := by decide
  refine ⟨by norm_num, hm, hn, ?_⟩
  rw [update_linearSpeed sampleExp 3 sampleVehicle (1 / 100) (by norm_num) hm hn]
  have s0 : sampleVehicle.computeSlipRatio ((0 : Nat) : Int) = 1 := by
    norm_num [Vehicle.computeSlipRatio, Vehicle.wheelCount, sampleVehicle, stdMax, fastWheel,
      slowWheel]
  have s1 : sampleVehicle.computeSlipRatio ((1 : Nat) : Int) = -(1 / 2) := by
    norm_num [Vehicle.computeSlipRatio, Vehicle.wheelCount, sampleVehicle, stdMax, fastWheel,
      slowWheel]
  have hsum : ∀ f : Fin sampleVehicle.wheels.length → ℚ,
      ∑ i : Fin sampleVehicle.wheels.length, f i = f ⟨0, by decide⟩ + f ⟨1, by decide⟩ :=
    fun f => Fin.sum_univ_two f
  rw [hsum]
  simp only [s0, s1]
  have a1 : |(1 : ℚ)| = 1 := abs_one
  have a2 : |(-(1 / 2) : ℚ)| = 1 / 2 := by
    rw [abs_neg]; exact abs_of_pos (by norm_num)
  rw [a1, a2]
  simp only [sampleVehicle, fastWheel, slowWheel, sampleExp, Fin.getElem_fin,
    List.getElem_cons_zero, List.getElem_cons_succ]
  norm_num

/-! ## The wheel-torque pass of `Vehicle::update` -/

theorem max_eps_pos (x : α) : 0 < max x 0.001 :=
  lt_of_lt_of_le (by norm_num) (le_max_right x 0.001)

/-- The angular velocity the second loop of `Vehicle::update` gives a wheel, `v` being the
vehicle that already carries the updated body speed. -/
theorem wheelStep_angularVelocity (exp : α → α) (pi : α) (v : Vehicle α) (dt : α)
    (w : Wheel α) :
    (v.wheelStep exp pi dt w).angularVelocity
      = max 0 (w.angularVelocity + dt *
          (w.driveTorque - w.brakeTorque
            - (if w.angularVelocity * v.wheelRadius ≥ v.linearSpeed then 1 else -1)
              * v.muPeak
              * (1 - exp (-10 * |w.angularVelocity * v.wheelRadius - v.linearSpeed|
                        / max v.linearSpeed 0.001))
              * (v.mass * 9.81 / (v.wheels.length : α)) * v.wheelRadius)
          / v.wheelInertia) := by
  have h10 : (10.0 : α) = 10 := by norm_num
  have harg : -10 * |(w.angularVelocity * v.wheelRadius - v.linearSpeed)
        / max v.linearSpeed 0.001|
      = -10 * |w.angularVelocity * v.wheelRadius - v.linearSpeed|
          / max v.linearSpeed 0.001 := by
    rw [abs_div, abs_of_pos (max_eps_pos v.linearSpeed), mul_div_assoc]
  unfold Vehicle.wheelStep
  simp only [lit_zero, lit_one, h10, fabs_eq_abs, stdMax_eq_max]
  rw [clamp_eq_max, harg]
  congr 1
  split_ifs <;> ring

/-- C9: for `dt > 0`, the wheel-torque pass of `Vehicle::update` works with the body speed
`v'` that the body-force pass of the same call has just produced (`v'` is the speed of
the returned state): the wheel `w` at index `i` gets the angular velocity
`max 0 (w + dt * (driveTorque - brakeTorque - sign' * muPeak *
(1 - exp (-10 * |w * wheelRadius - v'| / max v' 0.001)) * (mass * 9.81 / wheelCount) *
wheelRadius) / wheelInertia)`, `sign' = 1` if `w * wheelRadius ≥ v'`, else `-1`. -/
theorem update_angularVelocity (exp : α → α) (pi : α) (v : Vehicle α) (dt : α)
    (hdt : 0 < dt) (i : Nat) (w : Wheel α) (hw : v.wheels[i]? = some w) :
    (v.update exp pi dt).linearSpeed = v.bodySpeed exp dt ∧
    ∃ w', (v.update exp pi dt).wheels[i]? = some w' ∧
      w'.angularVelocity
        = max 0 (w.angularVelocity + dt *
            (w.driveTorque - w.brakeTorque
              - (if w.angularVelocity * v.wheelRadius ≥ (v.update exp pi dt).linearSpeed
                  then 1 else -1)
                * v.muPeak
                * (1 - exp (-10
                      * |w.angularVelocity * v.wheelRadius - (v.update exp pi dt).linearSpeed|
                      / max (v.update exp pi dt).linearSpeed 0.001))
                * (v.mass * 9.81 / (v.wheels.length : α)) * v.wheelRadius)
            / v.wheelInertia) := by
  have hspeed := linearSpeed_after_update exp pi v dt hdt
  refine ⟨hspeed, ?_⟩
  rw [hspeed]
  refine ⟨({ v with linearSpeed := v.bodySpeed exp dt } : Vehicle α).wheelStep exp pi dt w,
    ?_, ?_⟩
  · unfold Vehicle.update
    rw [lit_zero, if_neg (not_le.mpr hdt)]
    simp only [List.getElem?_map, hw, Option.map_some']
  · exact wheelStep_angularVelocity exp pi _ dt w

theorem sampleVehicle_bodySpeed :
    sampleVehicle.bodySpeed sampleExp (1 / 100) = 6305343 / 2100800 := by
  have s0 : sampleVehicle.computeSlipRatio ((0 : Nat) : Int) = 1 := by
    norm_num [Vehicle.computeSlipRatio, Vehicle.wheelCount, sampleVehicle, stdMax, fastWheel,
      slowWheel]
  have s1 : sampleVehicle.computeSlipRatio ((1 : Nat) : Int) = -(1 / 2) := by
    norm_num [Vehicle.computeSlipRatio, Vehicle.wheelCount, sampleVehicle, stdMax, fastWheel,
      slowWheel]
  have a1 : |(1 : ℚ)| = 1 := abs_one
  have a2 : |(-(1 / 2) : ℚ)| = 1 / 2 := by
    rw [abs_neg]; exact abs_of_pos (by norm_num)
  have hlen : sampleVehicle.wheels.length = 2 := rfl
  have f0 : sampleVehicle.wheelForce sampleExp 0 = 588600 / 101 := by
    rw [wheelForce_inRange sampleExp sampleVehicle 0 (by decide), s0, a1]
    simp only [sampleVehicle, fastWheel, slowWheel, sampleExp, List.getElem_cons_zero]
    norm_num
  have f1 : sampleVehicle.wheelForce sampleExp 1 = -(73575 / 13) := by
    rw [wheelForce_inRange sampleExp sampleVehicle 1 (by decide), s1, a2]
    simp only [sampleVehicle, fastWheel, slowWheel, sampleExp, List.getElem_cons_zero,
      List.getElem_cons_succ]
    norm_num
  unfold Vehicle.bodySpeed
  rw [totalForce_eq_sum, hlen, Finset.sum_range_succ, Finset.sum_range_succ,
    Finset.sum_range_zero, f0, f1]
  norm_num [sampleVehicle]

theorem update_angularVelocity_witness :
    (0 : ℚ) < 1 / 100 ∧ sampleVehicle.wheels[0]? = some fastWheel ∧
    (sampleVehicle.update sampleExp 3 (1 / 100)).linearSpeed = 6305343 / 2100800 ∧
    ∃ w', (sampleVehicle.update sampleExp 3 (1 / 100)).wheels[0]? = some w' ∧
      w'.angularVelocity = 2509192152532529 / 890682933296122 := by
  obtain ⟨hs, w', hw', hω⟩ :=
    update_angularVelocity sampleExp 3 sampleVehicle (1 / 100) (by norm_num) 0 fastWheel rfl
  rw [sampleVehicle_bodySpeed] at hs
  refine ⟨by norm_num, rfl, hs, w', hw', ?_⟩
  rw [hω, hs]
  simp only [sampleVehicle, fastWheel, sampleExp]
  norm_num
  rw [abs_of_pos (by norm_num)]
  norm_num

/-! ## The accumulator loop of `Simulation::run` -/

/-- What the inner loop does to the accumulator and the step counter: the time
`accumulator + steps * physicsDt` is conserved, the accumulator ends below `physicsDt`,
and it does not become negative. -/
theorem drain_accumulator (exp : α → α) (pi : α) (tc : TractionControl α) (s : SimState α) :
    (drain exp pi tc s).accumulator + (drain exp pi tc s).steps * physicsDt
        = s.accumulator + s.steps * physicsDt ∧
    (drain exp pi tc s).accumulator < physicsDt ∧
    (0 ≤ s.accumulator → 0 ≤ (drain exp pi tc s).accumulator) := by
  induction s using drain.induct exp pi tc with
  | case1 s h ih =>
    obtain ⟨h1, h2, h3⟩ := ih
    simp only [] at h1 h2 h3
    rw [drain, dif_pos h]
    refine ⟨?_, h2, ?_⟩
    · rw [h1]; push_cast; ring
    · intro _
      apply h3
      exact sub_nonneg.mpr h
  | case2 s h =>
    rw [drain, dif_neg h]
    exact ⟨rfl, not_le.mp h, fun h0 => h0⟩

/-- The outer loop from any state with a non-negative accumulator, for non-negative frame
times. -/
theorem frames_accumulator (exp : α → α) (pi : α) (tc : TractionControl α)
    (frameTimes : List α) (hf : ∀ f ∈ frameTimes, 0 ≤ f) (s : SimState α)
    (hs : 0 ≤ s.accumulator) (hlt : s.accumulator < physicsDt) :
    (frameTimes.foldl (frame exp pi tc) s).accumulator
        + (frameTimes.foldl (frame exp pi tc) s).steps * physicsDt
        = s.accumulator + s.steps * physicsDt + frameTimes.sum ∧
    0 ≤ (frameTimes.foldl (frame exp pi tc) s).accumulator ∧
    (frameTimes.foldl (frame exp pi tc) s).accumulator < physicsDt := by
  induction frameTimes generalizing s with
  | nil => simpa using ⟨hs, hlt⟩
  | cons f fs ih =>
    have hf0 : 0 ≤ f := hf f (List.mem_cons_self f fs)
    obtain ⟨d1, d2, d3⟩ :=
      drain_accumulator exp pi tc { s with accumulator := s.accumulator + f }
    simp only [] at d1 d3
    have hnn : 0 ≤ (frame exp pi tc s f).accumulator := d3 (add_nonneg hs hf0)
    obtain ⟨i1, i2, i3⟩ :=
      ih (fun g hg => hf g (List.mem_cons_of_mem f hg)) (frame exp pi tc s f) hnn d2
    rw [List.foldl_cons, List.sum_cons]
    refine ⟨?_, i2, i3⟩
    rw [i1]
    unfold frame
    rw [d1]
    ring

/-- The number of sub-steps is the floor of the total time over `physicsDt`. -/
theorem steps_eq_floor (exp : α → α) (pi : α) (tc : TractionControl α) (v : Vehicle α)
    (frameTimes : List α) (hf : ∀ f ∈ frameTimes, 0 ≤ f) :
    ((run exp pi tc v frameTimes).steps : Int) = Int.floor (frameTimes.sum / physicsDt) := by
  have hp : (0 : α) < physicsDt := physicsDt_pos
  obtain ⟨h1, h2, h3⟩ := frames_accumulator exp pi tc frameTimes hf
    { accumulator := 0.0, vehicle := v, steps := 0 } (by simp only [lit_zero]; exact le_refl 0)
    (by simp only [lit_zero]; exact hp)
  simp only [lit_zero, Nat.cast_zero, zero_mul, zero_add] at h1
  unfold run
  symm
  rw [Int.floor_eq_iff, ← h1]
  constructor
  · rw [le_div_iff₀ hp]
    push_cast
    linarith
  · rw [div_lt_iff₀ hp]
    push_cast
    linarith

/-- C10: for non-negative frame times fed to the accumulator loop of `Simulation::run`
(accumulator starting at `0`, `physicsDt = 0.01`, exact arithmetic), the number of physics
sub-steps executed is `⌊(f_1 + ... + f_N) / physicsDt⌋`; the simulated time is that floor
times `physicsDt`; and two sequences of non-negative frame times with the same total
execute the same number of sub-steps and end with the same vehicle. -/
theorem run_steps (exp : α → α) (pi : α) (tc : TractionControl α) (v : Vehicle α)
    (frameTimes : List α) (hf : ∀ f ∈ frameTimes, 0 ≤ f) :
    ((run exp pi tc v frameTimes).steps : Int) = Int.floor (frameTimes.sum / physicsDt) ∧
    ((run exp pi tc v frameTimes).steps : α) * physicsDt
      = (Int.floor (frameTimes.sum / physicsDt) : α) * physicsDt ∧
    (run exp pi tc v frameTimes).vehicle
      = (subStep exp pi tc)^[(Int.floor (frameTimes.sum / physicsDt)).toNat] v ∧
    ∀ other : List α, (∀ f ∈ other, 0 ≤ f) → other.sum = frameTimes.sum →
      (run exp pi tc v other).steps = (run exp pi tc v frameTimes).steps ∧
      (run exp pi tc v other).vehicle = (run exp pi tc v frameTimes).vehicle := by
  have h := steps_eq_floor exp pi tc v frameTimes hf
  have hother : ∀ other : List α, (∀ f ∈ other, 0 ≤ f) → other.sum = frameTimes.sum →
      (run exp pi tc v other).steps = (run exp pi tc v frameTimes).steps := by
    intro other ho hsum
    have h2 := steps_eq_floor exp pi tc v other ho
    rw [hsum, ← h] at h2
    exact Int.ofNat.inj h2
  refine ⟨h, ?_, ?_, ?_⟩
  · rw [← h]; push_cast; rfl
  · rw [run_vehicle, ← h, Int.toNat_ofNat]
  · intro other ho hsum
    refine ⟨hother other ho hsum, ?_⟩
    rw [run_vehicle, run_vehicle exp pi tc v frameTimes, hother other ho hsum]

theorem run_steps_witness :
    (∀ f ∈ ([0.003, 0.021, 0.05] : List ℚ), 0 ≤ f) ∧
    (run sampleExp 3 (TractionControl.new 0.1) freshVehicle [0.003]).steps = 0 ∧
    (run sampleExp 3 (TractionControl.new 0.1) freshVehicle [0.003, 0.021]).steps = 2 ∧
    (run sampleExp 3 (TractionControl.new 0.1) freshVehicle [0.003, 0.021, 0.05]).steps = 7 := by
  have hf3 : ∀ f ∈ ([0.003, 0.021, 0.05] : List ℚ), 0 ≤ f := by
    intro f hf
    simp only [List.mem_cons, List.mem_singleton, List.not_mem_nil, or_false] at hf
    rcases hf with rfl | rfl | rfl <;> norm_num
  have hf2 : ∀ f ∈ ([0.003, 0.021] : List ℚ), 0 ≤ f := by
    intro f hf
    simp only [List.mem_cons, List.mem_singleton, List.not_mem_nil, or_false] at hf
    rcases hf with rfl | rfl <;> norm_num
  have hf1 : ∀ f ∈ ([0.003] : List ℚ), 0 ≤ f := by
    intro f hf
    simp only [List.mem_cons, List.mem_singleton, List.not_mem_nil, or_false] at hf
    rcases hf with rfl
    norm_num
  have e1 := (run_steps sampleExp 3 (TractionControl.new 0.1) freshVehicle _ hf1).1
  have e2 := (run_steps sampleExp 3 (TractionControl.new 0.1) freshVehicle _ hf2).1
  have e3 := (run_steps sampleExp 3 (TractionControl.new 0.1) freshVehicle _ hf3).1
  have fl1 : Int.floor (([0.003] : List ℚ).sum / physicsDt) = 0 := by
    rw [Int.floor_eq_iff]; norm_num [physicsDt]
  have fl2 : Int.floor (([0.003, 0.021] : List ℚ).sum / physicsDt) = 2 := by
    rw [Int.floor_eq_iff]; norm_num [physicsDt]
  have fl3 : Int.floor (([0.003, 0.021, 0.05] : List ℚ).sum / physicsDt) = 7 := by
    rw [Int.floor_eq_iff]; norm_num [physicsDt]
  rw [fl1] at e1
  rw [fl2] at e2
  rw [fl3] at e3
  exact ⟨hf3, by exact_mod_cast e1, by exact_mod_cast e2, by exact_mod_cast e3⟩

/-! ## Sign of the slip ratio -/

/-- The slip ratio at an accepted index, for the wheel stored there. -/
theorem slip_of_wheel (v : Vehicle α) (i : Int) (w : Wheel α) (h0 : 0 ≤ i)
    (h1 : i < v.wheelCount) (hw : v.wheels[i.toNat]? = some w) :
    v.computeSlipRatio i
      = (w.angularVelocity * v.wheelRadius - v.linearSpeed) / max v.linearSpeed 0.001 := by
  unfold Vehicle.computeSlipRatio
  rw [if_neg (by omega), hw]
  simp only [stdMax_eq_max]

/-- C16: for an in-range index `i` holding the wheel `w`, `computeSlipRatio i` is positive
exactly when `w.angularVelocity * wheelRadius > linearSpeed`, negative exactly when
`w.angularVelocity * wheelRadius < linearSpeed`, and `0` exactly when the two speeds are
equal. -/
theorem slipRatio_sign (v : Vehicle α) (i : Int) (w : Wheel α) (h0 : 0 ≤ i)
    (h1 : i < v.wheelCount) (hw : v.wheels[i.toNat]? = some w) :
    (0 < v.computeSlipRatio i ↔ v.linearSpeed < w.angularVelocity * v.wheelRadius) ∧
    (v.computeSlipRatio i < 0 ↔ w.angularVelocity * v.wheelRadius < v.linearSpeed) ∧
    (v.computeSlipRatio i = 0 ↔ w.angularVelocity * v.wheelRadius = v.linearSpeed) := by
  have hm : 0 < max v.linearSpeed 0.001 := max_eps_pos v.linearSpeed
  rw [slip_of_wheel v i w h0 h1 hw]
  refine ⟨?_, ?_, ?_⟩
  · rw [lt_div_iff₀ hm, zero_mul, sub_pos]
  · rw [div_lt_iff₀ hm, zero_mul, sub_neg]
  · rw [div_eq_zero_iff, sub_eq_zero]
    constructor
    · rintro (h | h)
      · exact h
      · exact absurd h hm.ne'
    · exact fun h => Or.inl h

theorem slipRatio_sign_witness :
    ((0 : Int) ≤ 0 ∧ (0 : Int) < sampleVehicle.wheelCount ∧
      sampleVehicle.wheels[(0 : Int).toNat]? = some fastWheel) ∧
    (0 < sampleVehicle.computeSlipRatio 0
      ↔ sampleVehicle.linearSpeed < fastWheel.angularVelocity * sampleVehicle.wheelRadius) ∧
    (sampleVehicle.computeSlipRatio 0 < 0
      ↔ fastWheel.angularVelocity * sampleVehicle.wheelRadius < sampleVehicle.linearSpeed) ∧
    (sampleVehicle.computeSlipRatio 0 = 0
      ↔ fastWheel.angularVelocity * sampleVehicle.wheelRadius = sampleVehicle.linearSpeed) :=
  ⟨⟨by decide, by decide, rfl⟩,
    slipRatio_sign sampleVehicle 0 fastWheel (by decide) (by decide) rfl⟩

/-! ## The constructor -/

/-- What the constructor builds for a non-negative wheel count, whatever the stale value
of `wheelRadius` it reads. -/
theorem new_spec (g s : α) (n : Int) (hn : 0 ≤ n) :
    ∃ v, Vehicle.new g s n = some v ∧ v.linearSpeed = s ∧ v.wheels.length = n.toNat ∧
      v.wheelRadius = 0.3 ∧
      ∀ w ∈ v.wheels, w.brakeTorque = 0 ∧ w.driveTorque = 0 ∧ w.rotationAngle = 0 ∧
        w.angularVelocity = if g > 1e-5 then s / g else 0 := by
  unfold Vehicle.new
  rw [if_neg (not_lt.mpr hn)]
  refine ⟨_, rfl, rfl, ?_, rfl, ?_⟩
  · simp only [List.length_replicate]
  · intro w hw
    have hw2 := List.eq_of_mem_replicate hw
    subst hw2
    simp only [lit_zero, and_self]

/-- C11: evaluation of the constructor for `Vehicle(5.0, 4)` when the not yet assigned
member `wheelRadius` holds `0`: the speed is `5`, there are four wheels with zero torques
and zero rotation angle, but every angular velocity is `0`, not `5 / 0.3`, and the slip
ratio of wheel `0` is `-1`, not `0`. -/
theorem constructor_stale_radius :
    Vehicle.new (0 : ℚ) 5 4 = some lockedVehicle ∧
    lockedVehicle.linearSpeed = 5 ∧ lockedVehicle.wheels.length = 4 ∧
    lockedVehicle.wheelRadius = 0.3 ∧
    (∀ w ∈ lockedVehicle.wheels,
      w.brakeTorque = 0 ∧ w.driveTorque = 0 ∧ w.rotationAngle = 0 ∧
      w.angularVelocity = 0 ∧ w.angularVelocity ≠ 5 / lockedVehicle.wheelRadius) ∧
    lockedVehicle.computeSlipRatio 0 = -1 := by
  refine ⟨?_, rfl, rfl, rfl, ?_, ?_⟩
  · norm_num [Vehicle.new, lockedVehicle, restWheel, List.replicate]
  · intro w hw
    simp only [lockedVehicle, List.mem_cons, List.mem_singleton, List.not_mem_nil,
      or_false, or_self] at hw
    subst hw
    norm_num [restWheel, lockedVehicle]
  · norm_num [Vehicle.computeSlipRatio, Vehicle.wheelCount, lockedVehicle, restWheel, stdMax]

/-! ## Free rolling: zero slip gives zero friction -/

/-- A freely rolling wheel exerts no force in the first loop of `Vehicle::update`. -/
theorem wheelForce_rolling (exp : α → α) (hexp : exp 0 = 1) (v : Vehicle α) (hv : v.Rolling)
    (i : Nat) : v.wheelForce exp i = 0 := by
  by_cases h : i < v.wheels.length
  · have hmem : v.wheels[i] ∈ v.wheels := List.getElem_mem h
    have hslip : v.computeSlipRatio (i : Int) = 0 := by
      rw [slip_of_wheel v (i : Int) v.wheels[i] (Int.ofNat_nonneg i)
        (by unfold Vehicle.wheelCount; omega)
        (by rw [Int.toNat_ofNat]; exact List.getElem?_eq_getElem h),
        (hv.2 _ hmem).2.1, sub_self, zero_div]
    rw [wheelForce_inRange exp v i h, hslip, abs_zero, mul_zero, hexp, sub_self, mul_zero,
      zero_mul]
  · unfold Vehicle.wheelForce Vehicle.bodyForceStep
    rw [List.getElem?_eq_none (not_lt.mp h)]

theorem bodySpeed_rolling (exp : α → α) (hexp : exp 0 = 1) (v : Vehicle α) (hv : v.Rolling)
    (dt : α) : v.bodySpeed exp dt = v.linearSpeed := by
  unfold Vehicle.bodySpeed
  simp only [lit_zero]
  rw [clamp_eq_max, totalForce_eq_sum,
    Finset.sum_eq_zero (fun i _ => wheelForce_rolling exp hexp v hv i), zero_div, zero_mul,
    add_zero]
  exact max_eq_right hv.1

/-- The second loop of `Vehicle::update` on a wheel that rolls freely with respect to the
speed of `v`: only the rotation angle moves. -/
theorem wheelStep_rolling (exp : α → α) (hexp : exp 0 = 1) (pi : α) (v : Vehicle α) (dt : α)
    (w : Wheel α) (h0 : 0 ≤ w.angularVelocity)
    (hs : w.angularVelocity * v.wheelRadius = v.linearSpeed)
    (ht : w.driveTorque = w.brakeTorque) :
    v.wheelStep exp pi dt w
      = { w with rotationAngle := wrapAngle pi (w.rotationAngle + w.angularVelocity * dt) } := by
  have hω : (v.wheelStep exp pi dt w).angularVelocity = w.angularVelocity := by
    rw [wheelStep_angularVelocity, hs, sub_self, abs_zero, mul_zero, zero_div, hexp, sub_self,
      mul_zero, zero_mul, zero_mul, sub_zero, ht, sub_self, mul_zero, zero_div, add_zero]
    exact max_eq_right h0
  have hω2 := hω
  unfold Vehicle.wheelStep at hω2 ⊢
  unfold wrapAngle
  simp only [] at hω2 ⊢
  rw [hω2]

/-- On a freely rolling state `Vehicle::update` with `dt > 0` only advances the rotation
angles. -/
theorem update_rolling (exp : α → α) (hexp : exp 0 = 1) (pi : α) (v : Vehicle α)
    (hv : v.Rolling) (dt : α) (hdt : 0 < dt) :
    v.update exp pi dt
      = { v with
          wheels := v.wheels.map (fun w =>
            { w with
              rotationAngle := wrapAngle pi (w.rotationAngle + w.angularVelocity * dt) }) } := by
  unfold Vehicle.update
  rw [lit_zero, if_neg (not_le.mpr hdt)]
  simp only [bodySpeed_rolling exp hexp v hv dt]
  congr 1
  apply List.map_congr_left
  intro w hw
  exact wheelStep_rolling exp hexp pi _ dt w (hv.2 w hw).1 (hv.2 w hw).2.1 (hv.2 w hw).2.2

theorem update_rolling_keeps (exp : α → α) (hexp : exp 0 = 1) (pi : α) (v : Vehicle α)
    (hv : v.Rolling) (dt : α) :
    (v.update exp pi dt).Rolling ∧ (v.update exp pi dt).linearSpeed = v.linearSpeed := by
  by_cases hdt : 0 < dt
  · rw [update_rolling exp hexp pi v hv dt hdt]
    refine ⟨⟨hv.1, ?_⟩, rfl⟩
    intro w hw
    obtain ⟨w0, hw0, rfl⟩ := List.mem_map.mp hw
    exact hv.2 w0 hw0
  · unfold Vehicle.update
    rw [lit_zero, if_pos (not_lt.mp hdt)]
    exact ⟨hv, rfl⟩

theorem iterate_rolling (exp : α → α) (hexp : exp 0 = 1) (pi dt : α) (v : Vehicle α)
    (hv : v.Rolling) (n : Nat) :
    ((fun u : Vehicle α => u.update exp pi dt)^[n] v).Rolling ∧
      ((fun u : Vehicle α => u.update exp pi dt)^[n] v).linearSpeed = v.linearSpeed := by
  induction n with
  | zero => exact ⟨hv, rfl⟩
  | succ n ih =>
    rw [Function.iterate_succ_apply']
    obtain ⟨h1, h2⟩ := update_rolling_keeps exp hexp pi _ ih.1 dt
    exact ⟨h1, h2.trans ih.2⟩

theorem coastVehicle_rolling : (coastVehicle : Vehicle α).Rolling := by
  unfold Vehicle.Rolling coastVehicle
  refine ⟨by norm_num, ?_⟩
  intro w hw
  simp only [List.mem_cons, List.mem_singleton, List.not_mem_nil, or_false, or_self] at hw
  subst hw
  norm_num [coastWheel]

/-- C12, as stated, fails: over the reals with the real exponential, the vehicle with
`linearSpeed = 5.0` and every wheel turning at `5.0 / 0.3` does not have a speed strictly
below `5.0` after 100 calls of `Vehicle::update 0.01`. -/
theorem coasting_not_slower :
    ¬ ((fun u : Vehicle ℝ => u.update Real.exp Real.pi 0.01)^[100] coastVehicle).linearSpeed
        < 5.0 := by
  have h := (iterate_rolling Real.exp Real.exp_zero Real.pi 0.01 (coastVehicle : Vehicle ℝ)
    coastVehicle_rolling 100).2
  rw [h]
  exact lt_irrefl _

/-- C12, amended: for the 4-wheel vehicle with `mass = 1200`, `wheelRadius = 0.3`,
`muPeak = 1.0`, `wheelInertia = 1.0`, `linearSpeed = 5.0`, every wheel turning at
`5.0 / 0.3` and zero torques, the speed after 100 successive calls of
`Vehicle::update 0.01` is exactly `5.0`: at zero slip the friction coefficient
`muPeak * (1 - exp 0)` is `0`. -/
theorem coasting_keeps_speed (exp : α → α) (hexp : exp 0 = 1) (pi : α) :
    ((fun u : Vehicle α => u.update exp pi 0.01)^[100] coastVehicle).linearSpeed = 5.0 :=
  (iterate_rolling exp hexp pi 0.01 (coastVehicle : Vehicle α) coastVehicle_rolling 100).2

theorem coasting_keeps_speed_witness :
    sampleExp 0 = 1 ∧
    ((fun u : Vehicle ℚ => u.update sampleExp 3 0.01)^[100] coastVehicle).linearSpeed = 5.0 :=
  ⟨by norm_num [sampleExp], coasting_keeps_speed sampleExp (by norm_num [sampleExp]) 3⟩

/-! ## The rotation angle at a full turn -/

theorem rollingVehicle_rolling (omega angle : α) (h : 0 ≤ omega) :
    (rollingVehicle omega angle).Rolling := by
  unfold Vehicle.Rolling rollingVehicle
  refine ⟨mul_nonneg h (by norm_num), ?_⟩
  intro w hw
  simp only [List.mem_singleton] at hw
  subst hw
  exact ⟨h, rfl, rfl⟩

/-- One call of `Vehicle::update` on `rollingVehicle`: the wheel keeps its speed and its
angle becomes the wrapped `angle + omega * dt`. -/
theorem rollingVehicle_update (exp : α → α) (hexp : exp 0 = 1) (pi omega angle dt : α)
    (h : 0 ≤ omega) (hdt : 0 < dt) :
    (rollingVehicle omega angle).update exp pi dt
      = rollingVehicle omega (wrapAngle pi (angle + omega * dt)) := by
  rw [update_rolling exp hexp pi _ (rollingVehicle_rolling omega angle h) dt hdt]
  rfl

/-- The wrap test is strict: an integrated angle of exactly `2π` is stored as it is. -/
theorem wrapAngle_two_pi (pi : α) : wrapAngle pi (2 * pi) = 2 * pi := by
  have h2 : (2.0 : α) = 2 := by norm_num
  unfold wrapAngle
  rw [h2, if_neg (lt_irrefl _)]

/-- C14: evaluation at a state whose angle reaches a full turn exactly.  Over the reals,
the one-wheel vehicle rolling freely at `π` rad/s with rotation angle `π` (within
`[0, 2π)`) has, after `Vehicle::update 1`, the rotation angle `2π`, which is not
strictly below `2π`. -/
theorem rotation_reaches_two_pi :
    (0 : ℝ) < 1 ∧
    (∀ w ∈ (rollingVehicle Real.pi Real.pi : Vehicle ℝ).wheels,
      0 ≤ w.rotationAngle ∧ w.rotationAngle < 2 * Real.pi) ∧
    ((rollingVehicle Real.pi Real.pi : Vehicle ℝ).update Real.exp Real.pi 1
      = rollingVehicle Real.pi (2 * Real.pi)) ∧
    (∃ w ∈ ((rollingVehicle Real.pi Real.pi : Vehicle ℝ).update Real.exp Real.pi 1).wheels,
      w.rotationAngle = 2 * Real.pi ∧ ¬ w.rotationAngle < 2 * Real.pi) := by
  have hpi : (0 : ℝ) < Real.pi := Real.pi_pos
  have hup : (rollingVehicle Real.pi Real.pi : Vehicle ℝ).update Real.exp Real.pi 1
      = rollingVehicle Real.pi (2 * Real.pi) := by
    rw [rollingVehicle_update Real.exp Real.exp_zero Real.pi Real.pi Real.pi 1 hpi.le one_pos]
    have hsum : Real.pi + Real.pi * 1 = 2 * Real.pi := by ring
    rw [hsum, wrapAngle_two_pi]
  refine ⟨one_pos, ?_, hup, ?_⟩
  · intro w hw
    simp only [rollingVehicle, List.mem_singleton] at hw
    subst hw
    exact ⟨hpi.le, by linarith⟩
  · rw [hup]
    refine ⟨_, List.mem_singleton.mpr rfl, rfl, lt_irrefl _⟩

/-- C15: evaluation at one full turn.  Over the reals, the wheel of the one-wheel vehicle
rolling freely at the constant `2π` rad/s starts at rotation angle `0`; after one call of
`Vehicle::update 1` its angular velocity is still `2π` and its rotation angle is `2π`,
whereas `(2π * 1 * 1) mod 2π` is `0`. -/
theorem rotation_full_turn :
    ((rollingVehicle (2 * Real.pi) 0 : Vehicle ℝ).update Real.exp Real.pi 1
      = rollingVehicle (2 * Real.pi) (2 * Real.pi)) ∧
    modTwoPi Real.pi (2 * Real.pi * 1 * 1) = 0 ∧
    (2 * Real.pi ≠ modTwoPi Real.pi (2 * Real.pi * 1 * 1)) := by
  have hpi : (0 : ℝ) < Real.pi := Real.pi_pos
  have hmod : modTwoPi Real.pi (2 * Real.pi * 1 * 1) = 0 := by
    unfold modTwoPi
    have h1 : 2 * Real.pi * 1 * 1 / (2 * Real.pi) = 1 := by
      field_simp
    rw [h1, Int.floor_one]
    push_cast
    ring
  refine ⟨?_, hmod, ?_⟩
  · rw [rollingVehicle_update Real.exp Real.exp_zero Real.pi (2 * Real.pi) 0 1
      (by linarith) one_pos]
    have hsum : (0 : ℝ) + 2 * Real.pi * 1 = 2 * Real.pi := by ring
    rw [hsum, wrapAngle_two_pi]
  · rw [hmod]
    exact (by linarith : (2 : ℝ) * Real.pi ≠ 0)

/-! ## The learned-model controller without a backend -/

/-- Without a loaded model the loop body of the learned controller is the loop body of the
analytic controller with the same constants. -/
theorem learned_updateWheel_unloaded (c : LearnedControl α) (a : TractionControl α)
    (hl : c.modelLoaded = false) (h1 : a.desiredSlip = c.desiredSlip)
    (h2 : a.maxBrakeTorque = c.maxBrakeTorque) (h3 : a.maxDriveTorque = c.maxDriveTorque)
    (h4 : a.brakeRampRate = c.brakeRampRate) (h5 : a.driveRampRate = c.driveRampRate)
    (dt : α) (v : Vehicle α) (i : Nat) : c.updateWheel dt v i = a.updateWheel dt v i := by
  unfold LearnedControl.updateWheel TractionControl.updateWheel
  cases v.wheels[i]? with
  | none => rfl
  | some w => simp only [hl, h1, h2, h3, h4, h5, Bool.false_eq_true, if_false]

/-- The constructor leaves `modelLoaded` false for an empty path and for a failed load. -/
theorem learned_new_unloaded (load : String → Option (List α → InferenceResult α)) (d : α)
    (modelPath : String) (h : modelPath = "" ∨ load modelPath = none) :
    (LearnedControl.new load d modelPath).modelLoaded = false ∧
    (LearnedControl.new load d modelPath).desiredSlip = d ∧
    (LearnedControl.new load d modelPath).maxBrakeTorque = 200.0 ∧
    (LearnedControl.new load d modelPath).maxDriveTorque = 150.0 ∧
    (LearnedControl.new load d modelPath).brakeRampRate = 500.0 ∧
    (LearnedControl.new load d modelPath).driveRampRate = 300.0 := by
  unfold LearnedControl.new
  rcases h with h | h
  · subst h
    simp [String.isEmpty]
  · rw [h]
    split_ifs <;> simp

/-- C18: when no backend is available (empty model path, or the load failed, so that
`modelLoaded` is false), the learned-model `TractionControl::update` returns the same
state as the analytic `TractionControl::update` for the same `desiredSlip`, for every
vehicle state and every `dt`. -/
theorem learned_unavailable_is_analytic
    (load : String → Option (List α → InferenceResult α)) (d : α) (modelPath : String)
    (h : modelPath = "" ∨ load modelPath = none) (v : Vehicle α) (dt : α) :
    (LearnedControl.new load d modelPath).modelLoaded = false ∧
    (LearnedControl.new load d modelPath).update v dt = (TractionControl.new d).update v dt := by
  obtain ⟨hl, h1, h2, h3, h4, h5⟩ := learned_new_unloaded load d modelPath h
  refine ⟨hl, ?_⟩
  unfold LearnedControl.update TractionControl.update
  congr 1
  funext u i
  exact learned_updateWheel_unloaded _ (TractionControl.new d) hl h1.symm h2.symm h3.symm
    h4.symm h5.symm dt u i

theorem learned_unavailable_is_analytic_witness :
    ((emptyPath = "" ∨ failingLoad emptyPath = none) ∧
      (LearnedControl.new failingLoad (1 / 10 : ℚ) emptyPath).modelLoaded = false ∧
      (LearnedControl.new failingLoad (1 / 10 : ℚ) emptyPath).update sampleVehicle (1 / 100)
        = (TractionControl.new (1 / 10 : ℚ)).update sampleVehicle (1 / 100)) :=
  ⟨Or.inl rfl,
    learned_unavailable_is_analytic failingLoad (1 / 10 : ℚ) emptyPath (Or.inl rfl)
      sampleVehicle (1 / 100)⟩

/-! ## The learned-model controller with a failing backend -/

/-- Writing a brake torque and then a drive torque at an index holding the wheel `w`. -/
theorem setBoth_spec (v : Vehicle α) (i : Nat) (w : Wheel α) (hw : v.wheels[i]? = some w)
    (b d : α) :
    v.SameFrame ((v.setBrakeTorque (i : Int) b).setDriveTorque (i : Int) d) ∧
    ((v.setBrakeTorque (i : Int) b).setDriveTorque (i : Int) d).wheels[i]?
      = some { w with brakeTorque := stdMax 0 b, driveTorque := stdMax 0 d } ∧
    ∀ j : Nat, j ≠ i →
      ((v.setBrakeTorque (i : Int) b).setDriveTorque (i : Int) d).wheels[j]?
        = v.wheels[j]? := by
  have hlt : i < v.wheels.length := by
    by_contra hcon
    rw [List.getElem?_eq_none (not_lt.mp hcon)] at hw
    exact Option.noConfusion hw
  have h0 : (0 : Int) ≤ (i : Int) := Int.ofNat_nonneg i
  have h1 : (i : Int) < v.wheelCount := by unfold Vehicle.wheelCount; omega
  have hb := setBrakeTorque_fields v (i : Int) b
  have hd := setDriveTorque_fields (v.setBrakeTorque (i : Int) b) (i : Int) d
  have h1b : (i : Int) < (v.setBrakeTorque (i : Int) b).wheelCount := by
    unfold Vehicle.wheelCount; rw [hb.2.2.2.2.2.2]; omega
  have hsf : v.SameFrame ((v.setBrakeTorque (i : Int) b).setDriveTorque (i : Int) d) :=
    SameFrame.trans (a := v) (b := v.setBrakeTorque (i : Int) b) hb hd
  refine ⟨hsf, ?_, ?_⟩
  · rw [setDriveTorque_wheels _ _ _ h0 h1b, setBrakeTorque_wheels _ _ _ h0 h1,
      Int.toNat_ofNat, List.getElem?_modify_eq, List.getElem?_modify_eq, hw]
    rfl
  · intro j hj
    rw [setDriveTorque_wheels _ _ _ h0 h1b, setBrakeTorque_wheels _ _ _ h0 h1,
      Int.toNat_ofNat, List.getElem?_modify_ne _ _ (Ne.symm hj),
      List.getElem?_modify_ne _ _ (Ne.symm hj)]

/-- A step that does nothing, seen as a write of the unchanged wheel. -/
theorem keep_spec (v : Vehicle α) (i : Nat) (w : Wheel α) (hw : v.wheels[i]? = some w) :
    v.SameFrame v ∧ v.wheels[i]? = some w ∧ ∀ j : Nat, j ≠ i → v.wheels[j]? = v.wheels[j]? :=
  ⟨SameFrame.refl v, hw, fun _ _ => rfl⟩

/-- One iteration of the loop of the learned controller at an index holding `w`. -/
theorem learned_updateWheel_spec (c : LearnedControl α) (dt : α) (v : Vehicle α) (i : Nat)
    (w : Wheel α) (hw : v.wheels[i]? = some w) :
    v.SameFrame (c.updateWheel dt v i) ∧
    (c.updateWheel dt v i).wheels[i]?
      = some (c.wheelResult dt (v.computeSlipRatio (i : Int)) v.linearSpeed w) ∧
    ∀ j : Nat, j ≠ i → (c.updateWheel dt v i).wheels[j]? = v.wheels[j]? := by
  unfold LearnedControl.updateWheel LearnedControl.wheelResult
  rw [hw]
  simp only [lit_zero]
  by_cases hl : c.modelLoaded = true
  · rw [if_pos hl, if_pos hl]
    split
    · exact setBoth_spec v i w hw _ _
    · exact setBoth_spec v i w hw _ _
    · exact keep_spec v i w hw
    · exact keep_spec v i w hw
    · exact keep_spec v i w hw
  · rw [if_neg hl, if_neg hl]
    split_ifs with he
    · exact setBoth_spec v i w hw _ _
    · exact setBoth_spec v i w hw _ _

/-- The loop of the learned controller after its first `k` iterations. -/
theorem learned_loop (c : LearnedControl α) (dt : α) (v : Vehicle α) (k : Nat)
    (hk : k ≤ v.wheels.length) :
    v.SameFrame ((List.range k).foldl (c.updateWheel dt) v) ∧
    ∀ j : Nat, ((List.range k).foldl (c.updateWheel dt) v).wheels[j]?
      = if j < k then
          (v.wheels[j]?).map
            (fun w => c.wheelResult dt (v.computeSlipRatio (j : Int)) v.linearSpeed w)
        else v.wheels[j]? := by
  induction k with
  | zero =>
    refine ⟨SameFrame.refl v, ?_⟩
    intro j
    simp
  | succ k ih =>
    obtain ⟨hsf, hget⟩ := ih (by omega)
    have hlt : k < v.wheels.length := by omega
    have hwk : ((List.range k).foldl (c.updateWheel dt) v).wheels[k]?
        = some (v.wheels[k]) := by
      rw [hget k, if_neg (lt_irrefl k), List.getElem?_eq_getElem hlt]
    have hslip : ((List.range k).foldl (c.updateWheel dt) v).computeSlipRatio (k : Int)
        = v.computeSlipRatio (k : Int) := by
      apply computeSlipRatio_congr v _ k hsf
      rw [hwk, List.getElem?_eq_getElem hlt]
    have hspeed : ((List.range k).foldl (c.updateWheel dt) v).linearSpeed = v.linearSpeed :=
      hsf.2.2.2.2.2.1
    obtain ⟨s1, s2, s3⟩ := learned_updateWheel_spec c dt _ k _ hwk
    rw [List.range_succ, List.foldl_append, List.foldl_cons, List.foldl_nil]
    refine ⟨SameFrame.trans hsf s1, ?_⟩
    intro j
    by_cases hjk : j = k
    · subst hjk
      rw [s2, hslip, hspeed, if_pos (Nat.lt_succ_self j), List.getElem?_eq_getElem hlt]
      rfl
    · rw [s3 j hjk, hget j]
      by_cases hj : j < k
      · rw [if_pos hj, if_pos (by omega)]
      · rw [if_neg hj, if_neg (by omega)]

/-- The learned controller as a whole. -/
theorem learned_spec (c : LearnedControl α) (dt : α) (v : Vehicle α) :
    v.SameFrame (c.update v dt) ∧
    ∀ (i : Nat) (w : Wheel α), v.wheels[i]? = some w →
      (c.update v dt).wheels[i]?
        = some (c.wheelResult dt (v.computeSlipRatio (i : Int)) v.linearSpeed w) := by
  obtain ⟨hsf, hget⟩ := learned_loop c dt v v.wheels.length (le_refl _)
  unfold LearnedControl.update
  refine ⟨hsf, ?_⟩
  intro i w hw
  have hlt : i < v.wheels.length := by
    by_contra hcon
    rw [List.getElem?_eq_none (not_lt.mp hcon)] at hw
    exact Option.noConfusion hw
  rw [hget i, if_pos hlt, hw]
  rfl

/-- With a loaded model whose call throws, the wheel result is the wheel itself. -/
theorem learned_wheelResult_error (c : LearnedControl α) (dt slip speed : α) (w : Wheel α)
    (hl : c.modelLoaded = true)
    (herr : c.model [slip, w.angularVelocity, speed, w.brakeTorque, w.driveTorque, 0, 0, 0]
      = InferenceResult.error) :
    c.wheelResult dt slip speed w = w := by
  unfold LearnedControl.wheelResult
  simp only [lit_zero]
  rw [if_pos hl, herr]

theorem failingLoad_loaded (d : ℚ) :
    (LearnedControl.new failingLoad d samplePath).modelLoaded = true ∧
      (LearnedControl.new failingLoad d samplePath).model = failingBackend := by
  have he : samplePath.isEmpty = false := by decide
  unfold LearnedControl.new
  rw [he]
  simp [failingLoad]

/-- The wheel `0` of `sampleVehicle` after the analytic controller. -/
theorem sampleVehicle_analytic_wheel (dt : ℚ) :
    ((TractionControl.new (1 / 10 : ℚ)).update sampleVehicle dt).wheels[0]?
      = some (rampLaw (1 / 10) dt 1 fastWheel) := by
  have s0 : sampleVehicle.computeSlipRatio ((0 : Nat) : Int) = 1 := by
    norm_num [Vehicle.computeSlipRatio, Vehicle.wheelCount, sampleVehicle, stdMax, fastWheel,
      slowWheel]
  rw [(controller_spec (TractionControl.new (1 / 10 : ℚ)) dt sampleVehicle).2 0 fastWheel rfl,
    wheelResult_eq_rampLaw, s0]

/-- C17, as stated, fails: with a loaded backend whose inference call throws, the learned
controller leaves wheel `0` of the sample vehicle with brake torque `10` and drive torque
`40`, whereas the analytic controller writes `29 / 2` and `373 / 10` for the same state,
`desiredSlip = 1 / 10` and `dt = 1 / 100`. -/
theorem inference_failure_no_fallback :
    (LearnedControl.new failingLoad (1 / 10 : ℚ) samplePath).modelLoaded = true ∧
    ((LearnedControl.new failingLoad (1 / 10 : ℚ) samplePath).update sampleVehicle
        (1 / 100)).wheels[0]? = some fastWheel ∧
    ((TractionControl.new (1 / 10 : ℚ)).update sampleVehicle (1 / 100)).wheels[0]?
      = some { angularVelocity := 20, brakeTorque := 29 / 2, driveTorque := 373 / 10,
               rotationAngle := 1 } ∧
    ((LearnedControl.new failingLoad (1 / 10 : ℚ) samplePath).update sampleVehicle
        (1 / 100)).wheels[0]?
      ≠ ((TractionControl.new (1 / 10 : ℚ)).update sampleVehicle (1 / 100)).wheels[0]? := by
  obtain ⟨hl, hm⟩ := failingLoad_loaded (1 / 10)
  have hlearn : ((LearnedControl.new failingLoad (1 / 10 : ℚ) samplePath).update
      sampleVehicle (1 / 100)).wheels[0]? = some fastWheel := by
    rw [(learned_spec _ (1 / 100) sampleVehicle).2 0 fastWheel rfl,
      learned_wheelResult_error _ _ _ _ _ hl (by rw [hm]; rfl)]
  have hana : ((TractionControl.new (1 / 10 : ℚ)).update sampleVehicle (1 / 100)).wheels[0]?
      = some { angularVelocity := 20, brakeTorque := 29 / 2, driveTorque := 373 / 10,
               rotationAngle := 1 } := by
    rw [sampleVehicle_analytic_wheel]
    norm_num [rampLaw, fastWheel]
  refine ⟨hl, hlearn, hana, ?_⟩
  rw [hlearn, hana]
  norm_num [fastWheel]

/-- C17, amended: in the learned-model controller, when a backend is loaded and the
inference call for the wheel at index `i` throws, nothing is written for that wheel: after
`TractionControl::update` the wheel at index `i` is the wheel found there before, with
its brake and drive torque unchanged; the call returns a state, no error reaches the
caller. -/
theorem inference_failure_keeps_torques (c : LearnedControl α) (dt : α) (v : Vehicle α)
    (i : Nat) (w : Wheel α) (hl : c.modelLoaded = true) (hw : v.wheels[i]? = some w)
    (herr : c.model [v.computeSlipRatio (i : Int), w.angularVelocity, v.linearSpeed,
        w.brakeTorque, w.driveTorque, 0, 0, 0] = InferenceResult.error) :
    ∃ r, c.update v dt = r ∧ r.wheels[i]? = some w ∧
      r.wheels.length = v.wheels.length ∧ r.linearSpeed = v.linearSpeed := by
  obtain ⟨hsf, hres⟩ := learned_spec c dt v
  refine ⟨c.update v dt, rfl, ?_, hsf.2.2.2.2.2.2, hsf.2.2.2.2.2.1⟩
  rw [hres i w hw, learned_wheelResult_error c dt _ _ w hl herr]

theorem inference_failure_keeps_torques_witness :
    (LearnedControl.new failingLoad (1 / 10 : ℚ) samplePath).modelLoaded = true ∧
    sampleVehicle.wheels[1]? = some slowWheel ∧
    ∃ r, (LearnedControl.new failingLoad (1 / 10 : ℚ) samplePath).update sampleVehicle
        (1 / 100) = r ∧ r.wheels[1]? = some slowWheel ∧
      r.wheels.length = sampleVehicle.wheels.length ∧
      r.linearSpeed = sampleVehicle.linearSpeed :=
  ⟨(failingLoad_loaded (1 / 10)).1, rfl,
    inference_failure_keeps_torques (LearnedControl.new failingLoad (1 / 10 : ℚ) samplePath)
      (1 / 100) sampleVehicle 1 slowWheel (failingLoad_loaded (1 / 10)).1 rfl
      (by rw [(failingLoad_loaded (1 / 10)).2]; rfl)⟩

/-! ## The controller and a non-positive time step -/

/-- A vehicle is determined by its frame and its wheels. -/
theorem vehicle_eq_of_sameFrame (v r : Vehicle α) (hsf : v.SameFrame r)
    (hw : r.wheels = v.wheels) : r = v := by
  obtain ⟨p1, p2, p3, p4, p5, p6, -⟩ := hsf
  cases r
  cases v
  simp only [Vehicle.mk.injEq]
  exact ⟨p1, p2, p3, p4, p5, p6, hw⟩

/-- With `dt = 0` the ramp law keeps a wheel whose torques are within the bounds. -/
theorem rampLaw_zero_dt (d slip : α) (w : Wheel α) (hw : w.TorqueBounded 200 150) :
    rampLaw d 0 slip w = w := by
  obtain ⟨⟨hb0, hb1⟩, ⟨hd0, hd1⟩⟩ := hw
  unfold rampLaw
  simp only [mul_zero, add_zero, sub_zero]
  split_ifs
  · rw [min_eq_right hb1, max_eq_right hb0, max_eq_right hd0]
  · rw [min_eq_right hd1, max_eq_right hb0, max_eq_right hd0]

/-- C19, as stated, fails: the controller has no guard on `dt`.  With `dt = -1/100` it
changes wheel `0` of the sample vehicle (brake `10` to `11/2`, drive `40` to `427/10`),
and with `dt = 0` it changes a brake torque of `300` to `200`. -/
theorem controller_nonpos_dt_changes :
    ((-(1 / 100) : ℚ) ≤ 0 ∧
      ((TractionControl.new (1 / 10 : ℚ)).update sampleVehicle (-(1 / 100))).wheels[0]?
        = some { angularVelocity := 20, brakeTorque := 11 / 2, driveTorque := 427 / 10,
                 rotationAngle := 1 } ∧
      ((TractionControl.new (1 / 10 : ℚ)).update sampleVehicle (-(1 / 100))).wheels[0]?
        ≠ sampleVehicle.wheels[0]?) ∧
    ((0 : ℚ) ≤ 0 ∧
      ((TractionControl.new (1 / 10 : ℚ)).update hotVehicle 0).wheels[0]?
        = some { angularVelocity := 20, brakeTorque := 200, driveTorque := 40,
                 rotationAngle := 1 } ∧
      ((TractionControl.new (1 / 10 : ℚ)).update hotVehicle 0).wheels[0]?
        ≠ hotVehicle.wheels[0]?) := by
  have hneg : ((TractionControl.new (1 / 10 : ℚ)).update sampleVehicle (-(1 / 100))).wheels[0]?
      = some { angularVelocity := 20, brakeTorque := 11 / 2, driveTorque := 427 / 10,
               rotationAngle := 1 } := by
    rw [sampleVehicle_analytic_wheel]
    norm_num [rampLaw, fastWheel]
  have s0 : hotVehicle.computeSlipRatio ((0 : Nat) : Int) = 1 := by
    norm_num [Vehicle.computeSlipRatio, Vehicle.wheelCount, hotVehicle, stdMax, hotWheel]
  have hzero : ((TractionControl.new (1 / 10 : ℚ)).update hotVehicle 0).wheels[0]?
      = some { angularVelocity := 20, brakeTorque := 200, driveTorque := 40,
               rotationAngle := 1 } := by
    rw [(controller_spec (TractionControl.new (1 / 10 : ℚ)) 0 hotVehicle).2 0 hotWheel rfl,
      wheelResult_eq_rampLaw, s0]
    norm_num [rampLaw, hotWheel]
  refine ⟨⟨by norm_num, hneg, ?_⟩, ⟨le_refl 0, hzero, ?_⟩⟩
  · rw [hneg]
    norm_num [sampleVehicle, fastWheel]
  · rw [hzero]
    norm_num [hotVehicle, hotWheel]

/-- C19, amended: a zero time step is absorbed by the controller on every state whose
torques are within their bounds: if every wheel has `0 ≤ brakeTorque ≤ 200` and
`0 ≤ driveTorque ≤ 150`, then `TractionControl::update(vehicle, 0)` returns the state
unchanged. -/
theorem controller_zero_dt (d : α) (v : Vehicle α) (hv : v.TorqueBounded 200 150) :
    (TractionControl.new d).update v 0 = v := by
  obtain ⟨hsf, hres⟩ := controller_spec (TractionControl.new d) 0 v
  apply vehicle_eq_of_sameFrame v _ hsf
  apply List.ext_getElem?
  intro i
  by_cases hlt : i < v.wheels.length
  · have hold : v.wheels[i]? = some v.wheels[i] := List.getElem?_eq_getElem hlt
    rw [hres i _ hold, wheelResult_eq_rampLaw,
      rampLaw_zero_dt d _ _ (hv _ (List.getElem_mem hlt)), hold]
  · rw [List.getElem?_eq_none (not_lt.mp hlt),
      List.getElem?_eq_none (by rw [hsf.2.2.2.2.2.2]; exact not_lt.mp hlt)]

theorem controller_zero_dt_witness :
    sampleVehicle.TorqueBounded 200 150 ∧
    (TractionControl.new (1 / 10 : ℚ)).update sampleVehicle 0 = sampleVehicle :=
  ⟨sampleVehicle_torqueBounded,
    controller_zero_dt (1 / 10 : ℚ) sampleVehicle sampleVehicle_torqueBounded⟩

/-! ## Direction of the friction force on the body -/

/-- The friction coefficient of the source is not negative when `exp` stays at most `1`
on the non-positive numbers, as the exponential does. -/
theorem friction_coeff_nonneg (exp : α → α) (hexp : ∀ x : α, x ≤ 0 → exp x ≤ 1)
    (muPeak slip : α) (hmu : 0 ≤ muPeak) : 0 ≤ muPeak * (1 - exp (-10 * |slip|)) := by
  apply mul_nonneg hmu
  have h : exp (-10 * |slip|) ≤ 1 := by
    apply hexp
    have := abs_nonneg slip
    linarith
  linarith

/-- C20: for `dt > 0`, `mass > 0`, `muPeak ≥ 0` and `linearSpeed ≥ 0`, with an `exp` that
is at most `1` on the non-positive numbers (as `std::exp` is): if every wheel's surface
speed `angularVelocity * wheelRadius` is at least `linearSpeed`, `Vehicle::update dt` does
not decrease `linearSpeed`; if every wheel's surface speed is below `linearSpeed`, it does
not increase `linearSpeed`. -/
theorem friction_opposes_slip (exp : α → α) (hexp : ∀ x : α, x ≤ 0 → exp x ≤ 1) (pi : α)
    (v : Vehicle α) (dt : α) (hdt : 0 < dt) (hm : 0 < v.mass) (hmu : 0 ≤ v.muPeak)
    (hv : 0 ≤ v.linearSpeed) :
    ((∀ w ∈ v.wheels, v.linearSpeed ≤ w.angularVelocity * v.wheelRadius) →
      v.linearSpeed ≤ (v.update exp pi dt).linearSpeed) ∧
    ((∀ w ∈ v.wheels, w.angularVelocity * v.wheelRadius < v.linearSpeed) →
      (v.update exp pi dt).linearSpeed ≤ v.linearSpeed) := by
  have hN : 0 ≤ v.mass * 9.81 / (v.wheels.length : α) :=
    div_nonneg (mul_nonneg hm.le (by norm_num)) (Nat.cast_nonneg _)
  have hspeed : (v.update exp pi dt).linearSpeed
      = max 0 (v.linearSpeed + v.totalForce exp / v.mass * dt) := by
    rw [linearSpeed_after_update exp pi v dt hdt]
    unfold Vehicle.bodySpeed
    simp only [lit_zero]
    exact clamp_eq_max _
  rw [hspeed, totalForce_eq_sum]
  constructor
  · intro hall
    have hsum : 0 ≤ ∑ i in Finset.range v.wheels.length, v.wheelForce exp i := by
      apply Finset.sum_nonneg
      intro i hi
      have hlt : i < v.wheels.length := Finset.mem_range.mp hi
      rw [wheelForce_inRange exp v i hlt, if_pos (hall _ (List.getElem_mem hlt)), one_mul]
      exact mul_nonneg (friction_coeff_nonneg exp hexp _ _ hmu) hN
    have hacc : 0 ≤ (∑ i in Finset.range v.wheels.length, v.wheelForce exp i) / v.mass * dt :=
      mul_nonneg (div_nonneg hsum hm.le) hdt.le
    exact le_max_of_le_right (by linarith)
  · intro hall
    have hsum : ∑ i in Finset.range v.wheels.length, v.wheelForce exp i ≤ 0 := by
      apply Finset.sum_nonpos
      intro i hi
      have hlt : i < v.wheels.length := Finset.mem_range.mp hi
      rw [wheelForce_inRange exp v i hlt,
        if_neg (not_le.mpr (hall _ (List.getElem_mem hlt)))]
      have h := mul_nonneg (friction_coeff_nonneg exp hexp v.muPeak
        (v.computeSlipRatio (i : Int)) hmu) hN
      linarith
    have hacc : (∑ i in Finset.range v.wheels.length, v.wheelForce exp i) / v.mass * dt ≤ 0 :=
      mul_nonpos_of_nonpos_of_nonneg (div_nonpos_of_nonpos_of_nonneg hsum hm.le) hdt.le
    exact max_le hv (by linarith)

theorem sampleExp_le_one (x : ℚ) : sampleExp x ≤ 1 := by
  unfold sampleExp
  have h : (0 : ℚ) < 1 + x * x := by nlinarith [mul_self_nonneg x]
  rw [div_le_one h]
  nlinarith [mul_self_nonneg x]

/-- The body speed of `spinVehicle` after the first loop of `Vehicle::update (1 / 100)`:
both wheels push forward. -/
theorem spinVehicle_bodySpeed :
    spinVehicle.bodySpeed sampleExp (1 / 100) = 31281 / 10100 := by
  have s0 : spinVehicle.computeSlipRatio ((0 : Nat) : Int) = 1 := by
    norm_num [Vehicle.computeSlipRatio, Vehicle.wheelCount, spinVehicle, stdMax, fastWheel]
  have s1 : spinVehicle.computeSlipRatio ((1 : Nat) : Int) = 1 := by
    norm_num [Vehicle.computeSlipRatio, Vehicle.wheelCount, spinVehicle, stdMax, fastWheel]
  have a1 : |(1 : ℚ)| = 1 := abs_one
  have hlen : spinVehicle.wheels.length = 2 := rfl
  have f0 : spinVehicle.wheelForce sampleExp 0 = 588600 / 101 := by
    rw [wheelForce_inRange sampleExp spinVehicle 0 (by decide), s0, a1]
    simp only [spinVehicle, fastWheel, sampleExp, List.getElem_cons_zero]
    norm_num
  have f1 : spinVehicle.wheelForce sampleExp 1 = 588600 / 101 := by
    rw [wheelForce_inRange sampleExp spinVehicle 1 (by decide), s1, a1]
    simp only [spinVehicle, fastWheel, sampleExp, List.getElem_cons_zero,
      List.getElem_cons_succ]
    norm_num
  unfold Vehicle.bodySpeed
  rw [totalForce_eq_sum, hlen, Finset.sum_range_succ, Finset.sum_range_succ,
    Finset.sum_range_zero, f0, f1]
  norm_num [spinVehicle]

/-- The body speed of `lockedVehicle` after the first loop of `Vehicle::update (1 / 100)`:
all four wheels hold the body back. -/
theorem lockedVehicle_bodySpeed :
    lockedVehicle.bodySpeed sampleExp (1 / 100) = 49519 / 10100 := by
  have hlen : lockedVehicle.wheels.length = 4 := rfl
  have hslip : ∀ i : Nat, i < 4 → lockedVehicle.computeSlipRatio (i : Int) = -1 := by
    intro i hi
    have hw : lockedVehicle.wheels[((i : Nat) : Int).toNat]? = some restWheel := by
      rw [Int.toNat_ofNat]
      interval_cases i <;> rfl
    rw [slip_of_wheel lockedVehicle (i : Int) restWheel (Int.ofNat_nonneg i)
      (by unfold Vehicle.wheelCount; rw [hlen]; omega) hw]
    norm_num [lockedVehicle, restWheel]
  have a1 : |(-1 : ℚ)| = 1 := by rw [abs_neg, abs_one]
  have hforce : ∀ i : Nat, i < 4 → lockedVehicle.wheelForce sampleExp i = -(294300 / 101) := by
    intro i hi
    have hget : lockedVehicle.wheels[i]? = some restWheel := by
      interval_cases i <;> rfl
    have hget2 : lockedVehicle.wheels[i] = restWheel := by
      have h2 := List.getElem?_eq_getElem (l := lockedVehicle.wheels) (n := i)
        (by rw [hlen]; exact hi)
      rw [h2] at hget
      exact Option.some.inj hget
    rw [wheelForce_inRange sampleExp lockedVehicle i (by rw [hlen]; exact hi), hslip i hi, a1,
      hget2]
    norm_num [lockedVehicle, restWheel, sampleExp]
  unfold Vehicle.bodySpeed
  rw [totalForce_eq_sum, hlen, Finset.sum_range_succ, Finset.sum_range_succ,
    Finset.sum_range_succ, Finset.sum_range_succ, Finset.sum_range_zero,
    hforce 0 (by decide), hforce 1 (by decide), hforce 2 (by decide), hforce 3 (by decide)]
  norm_num [lockedVehicle]

theorem friction_opposes_slip_witness :
    ((∀ x : ℚ, x ≤ 0 → sampleExp x ≤ 1) ∧ (0 : ℚ) < 1 / 100) ∧
    ((0 < spinVehicle.mass ∧ 0 ≤ spinVehicle.muPeak ∧ 0 ≤ spinVehicle.linearSpeed ∧
        ∀ w ∈ spinVehicle.wheels,
          spinVehicle.linearSpeed ≤ w.angularVelocity * spinVehicle.wheelRadius) ∧
      spinVehicle.linearSpeed ≤ (spinVehicle.update sampleExp 3 (1 / 100)).linearSpeed ∧
      spinVehicle.linearSpeed = 3 ∧
      (spinVehicle.update sampleExp 3 (1 / 100)).linearSpeed = 31281 / 10100) ∧
    ((0 < lockedVehicle.mass ∧ 0 ≤ lockedVehicle.muPeak ∧ 0 ≤ lockedVehicle.linearSpeed ∧
        ∀ w ∈ lockedVehicle.wheels,
          w.angularVelocity * lockedVehicle.wheelRadius < lockedVehicle.linearSpeed) ∧
      (lockedVehicle.update sampleExp 3 (1 / 100)).linearSpeed ≤ lockedVehicle.linearSpeed ∧
      lockedVehicle.linearSpeed = 5 ∧
      (lockedVehicle.update sampleExp 3 (1 / 100)).linearSpeed = 49519 / 10100) := by
  have hexp : ∀ x : ℚ, x ≤ 0 → sampleExp x ≤ 1 := fun x _ => sampleExp_le_one x
  have hdt : (0 : ℚ) < 1 / 100 := by norm_num
  have hm1 : 0 < spinVehicle.mass := by norm_num [spinVehicle]
  have hmu1 : 0 ≤ spinVehicle.muPeak := by norm_num [spinVehicle]
  have hv1 : 0 ≤ spinVehicle.linearSpeed := by norm_num [spinVehicle]
  have hall1 : ∀ w ∈ spinVehicle.wheels,
      spinVehicle.linearSpeed ≤ w.angularVelocity * spinVehicle.wheelRadius := by
    intro w hw
    simp only [spinVehicle, List.mem_cons, List.mem_singleton, List.not_mem_nil, or_false,
      or_self] at hw
    subst hw
    norm_num [spinVehicle, fastWheel]
  have hm2 : 0 < lockedVehicle.mass := by norm_num [lockedVehicle]
  have hmu2 : 0 ≤ lockedVehicle.muPeak := by norm_num [lockedVehicle]
  have hv2 : 0 ≤ lockedVehicle.linearSpeed := by norm_num [lockedVehicle]
  have hall2 : ∀ w ∈ lockedVehicle.wheels,
      w.angularVelocity * lockedVehicle.wheelRadius < lockedVehicle.linearSpeed := by
    intro w hw
    simp only [lockedVehicle, List.mem_cons, List.mem_singleton, List.not_mem_nil, or_false,
      or_self] at hw
    subst hw
    norm_num [lockedVehicle, restWheel]
  refine ⟨⟨hexp, hdt⟩, ⟨⟨hm1, hmu1, hv1, hall1⟩, ?_, rfl, ?_⟩, ⟨⟨hm2, hmu2, hv2, hall2⟩, ?_, rfl, ?_⟩⟩
  · exact (friction_opposes_slip sampleExp hexp 3 spinVehicle (1 / 100) hdt hm1 hmu1 hv1).1
      hall1
  · rw [linearSpeed_after_update sampleExp 3 spinVehicle (1 / 100) hdt, spinVehicle_bodySpeed]
  · exact (friction_opposes_slip sampleExp hexp 3 lockedVehicle (1 / 100) hdt hm2 hmu2 hv2).2
      hall2
  · rw [linearSpeed_after_update sampleExp 3 lockedVehicle (1 / 100) hdt,
      lockedVehicle_bodySpeed]

/-! ## Direction of the ramp -/

/-- The reference ramp law moves the torques of a wheel within the bounds in the direction
of the slip error, for `dt ≥ 0`. -/
theorem rampLaw_direction (d dt slip : α) (w : Wheel α) (hdt : 0 ≤ dt)
    (hw : w.TorqueBounded 200 150) :
    (slip > d → w.brakeTorque ≤ (rampLaw d dt slip w).brakeTorque ∧
      (rampLaw d dt slip w).driveTorque ≤ w.driveTorque) ∧
    (slip ≤ d → (rampLaw d dt slip w).brakeTorque ≤ w.brakeTorque ∧
      w.driveTorque ≤ (rampLaw d dt slip w).driveTorque) ∧
    (slip = d → (rampLaw d dt slip w).brakeTorque = w.brakeTorque ∧
      (rampLaw d dt slip w).driveTorque = w.driveTorque) := by
  obtain ⟨⟨hb0, hb1⟩, ⟨hd0, hd1⟩⟩ := hw
  refine ⟨?_, ?_, ?_⟩
  · intro hgt
    have he : slip - d > 0 := sub_pos.mpr hgt
    have hb : 0 ≤ 500 * (slip - d) * dt := mul_nonneg (mul_nonneg (by norm_num) he.le) hdt
    have hdr : 0 ≤ 300 * (slip - d) * dt := mul_nonneg (mul_nonneg (by norm_num) he.le) hdt
    unfold rampLaw
    simp only [if_pos he]
    refine ⟨le_max_of_le_right (le_min hb1 (by linarith)), max_le hd0 (by linarith)⟩
  · intro hle
    have he : ¬ slip - d > 0 := not_lt.mpr (sub_nonpos.mpr hle)
    have hmag : 0 ≤ -(slip - d) := by linarith
    have hb : 0 ≤ 500 * (-(slip - d)) * dt := mul_nonneg (mul_nonneg (by norm_num) hmag) hdt
    have hdr : 0 ≤ 300 * (-(slip - d)) * dt := mul_nonneg (mul_nonneg (by norm_num) hmag) hdt
    unfold rampLaw
    simp only [if_neg he]
    refine ⟨max_le hb0 (by linarith), le_max_of_le_right (le_min hd1 (by linarith))⟩
  · intro heq
    subst heq
    unfold rampLaw
    simp only [sub_self, gt_iff_lt, lt_irrefl, if_false, neg_zero, mul_zero, zero_mul,
      sub_zero, add_zero]
    exact ⟨max_eq_right hb0, by rw [min_eq_right hd1, max_eq_right hd0]⟩

/-- C21: for `dt ≥ 0` and a wheel `w` at index `i` with `0 ≤ brakeTorque ≤ 200` and
`0 ≤ driveTorque ≤ 150`, the wheel `w'` that `TractionControl::update` leaves at index `i`
satisfies: if `computeSlipRatio i > desiredSlip`, the brake torque has not decreased and the
drive torque has not increased; if `computeSlipRatio i ≤ desiredSlip`, the brake torque has
not increased and the drive torque has not decreased; if the slip equals `desiredSlip`,
both torques are unchanged. -/
theorem ramp_follows_slip_error (d dt : α) (v : Vehicle α) (i : Nat) (w : Wheel α)
    (hdt : 0 ≤ dt) (hi : v.wheels[i]? = some w) (hw : w.TorqueBounded 200 150) :
    ∃ w', ((TractionControl.new d).update v dt).wheels[i]? = some w' ∧
      (v.computeSlipRatio (i : Int) > d →
        w.brakeTorque ≤ w'.brakeTorque ∧ w'.driveTorque ≤ w.driveTorque) ∧
      (v.computeSlipRatio (i : Int) ≤ d →
        w'.brakeTorque ≤ w.brakeTorque ∧ w.driveTorque ≤ w'.driveTorque) ∧
      (v.computeSlipRatio (i : Int) = d →
        w'.brakeTorque = w.brakeTorque ∧ w'.driveTorque = w.driveTorque) := by
  refine ⟨rampLaw d dt (v.computeSlipRatio (i : Int)) w, ?_,
    rampLaw_direction d dt _ w hdt hw⟩
  rw [(controller_spec (TractionControl.new d) dt v).2 i w hi, wheelResult_eq_rampLaw]

theorem fastWheel_torqueBounded : fastWheel.TorqueBounded 200 150 := by
  unfold Wheel.TorqueBounded fastWheel
  norm_num

theorem ramp_follows_slip_error_witness :
    ((0 : ℚ) ≤ 1 / 100 ∧ sampleVehicle.wheels[0]? = some fastWheel ∧
      fastWheel.TorqueBounded 200 150) ∧
    ∃ w', ((TractionControl.new (1 / 10 : ℚ)).update sampleVehicle (1 / 100)).wheels[0]?
        = some w' ∧
      (sampleVehicle.computeSlipRatio ((0 : Nat) : Int) > 1 / 10 →
        fastWheel.brakeTorque ≤ w'.brakeTorque ∧ w'.driveTorque ≤ fastWheel.driveTorque) ∧
      (sampleVehicle.computeSlipRatio ((0 : Nat) : Int) ≤ 1 / 10 →
        w'.brakeTorque ≤ fastWheel.brakeTorque ∧ fastWheel.driveTorque ≤ w'.driveTorque) ∧
      (sampleVehicle.computeSlipRatio ((0 : Nat) : Int) = 1 / 10 →
        w'.brakeTorque = fastWheel.brakeTorque ∧ w'.driveTorque = fastWheel.driveTorque) :=
  ⟨⟨by norm_num, rfl, fastWheel_torqueBounded⟩,
    ramp_follows_slip_error (1 / 10 : ℚ) (1 / 100) sampleVehicle 0 fastWheel (by norm_num) rfl
      fastWheel_torqueBounded⟩

/-! ## Rotation angle and `slipOpt` do not influence the physics -/

theorem physical_eq_iff (w w' : Wheel α) :
    w.physical = w'.physical ↔ w.angularVelocity = w'.angularVelocity ∧
      w.brakeTorque = w'.brakeTorque ∧ w.driveTorque = w'.driveTorque := by
  unfold Wheel.physical
  simp only [Prod.mk.injEq]

theorem physAgree_wheel (v v' : Vehicle α) (h : v.PhysAgree v') (i : Nat) :
    (v.wheels[i]?).map Wheel.physical = (v'.wheels[i]?).map Wheel.physical := by
  rw [← List.getElem?_map, ← List.getElem?_map, h.2.2.2.2.2]

theorem physAgree_length (v v' : Vehicle α) (h : v.PhysAgree v') :
    v.wheels.length = v'.wheels.length := by
  have := congrArg List.length h.2.2.2.2.2
  simpa using this

/-- The slip ratio is the same on two states that agree physically, for every index. -/
theorem physAgree_slip (v v' : Vehicle α) (h : v.PhysAgree v') (i : Int) :
    v.computeSlipRatio i = v'.computeSlipRatio i := by
  have hlen := physAgree_length v v' h
  have hw := physAgree_wheel v v' h i.toNat
  obtain ⟨p1, -, -, -, p5, -⟩ := h
  unfold Vehicle.computeSlipRatio Vehicle.wheelCount
  rw [hlen]
  split_ifs with hi
  · rfl
  · cases h1 : v.wheels[i.toNat]? with
    | none =>
      rw [h1] at hw
      cases h2 : v'.wheels[i.toNat]? with
      | none => rfl
      | some w' => rw [h2] at hw; exact Option.noConfusion hw
    | some w =>
      rw [h1] at hw
      cases h2 : v'.wheels[i.toNat]? with
      | none => rw [h2] at hw; exact Option.noConfusion hw
      | some w' =>
        rw [h2] at hw
        have hp := (physical_eq_iff w w').mp (Option.some.inj hw)
        simp only [hp.1, p1, p5]

/-- Two lists of wheels that correspond index by index after applying `f` and `g` have the
same physical projection. -/
theorem map_physical_ext (l l' : List (Wheel α)) (f g : Wheel α → Wheel α)
    (hl : l.map Wheel.physical = l'.map Wheel.physical)
    (hfg : ∀ w w' : Wheel α, w.physical = w'.physical → (f w).physical = (g w').physical) :
    (l.map f).map Wheel.physical = (l'.map g).map Wheel.physical := by
  induction l generalizing l' with
  | nil =>
    cases l' with
    | nil => rfl
    | cons b l' => simp at hl
  | cons a l ih =>
    cases l' with
    | nil => simp at hl
    | cons b l' =>
      simp only [List.map_cons, List.cons.injEq] at hl ⊢
      exact ⟨hfg a b hl.1, ih l' hl.2⟩

theorem physAgree_bodyForceStep (exp : α → α) (v v' : Vehicle α) (h : v.PhysAgree v')
    (acc : α) (i : Nat) : v.bodyForceStep exp acc i = v'.bodyForceStep exp acc i := by
  have hlen := physAgree_length v v' h
  have hw := physAgree_wheel v v' h i
  have hslip := physAgree_slip v v' h (i : Int)
  obtain ⟨p1, p2, -, p4, p5, -⟩ := h
  unfold Vehicle.bodyForceStep
  cases h1 : v.wheels[i]? with
  | none =>
    rw [h1] at hw
    cases h2 : v'.wheels[i]? with
    | none => rfl
    | some w' => rw [h2] at hw; exact Option.noConfusion hw
  | some w =>
    rw [h1] at hw
    cases h2 : v'.wheels[i]? with
    | none => rw [h2] at hw; exact Option.noConfusion hw
    | some w' =>
      rw [h2] at hw
      have hp := (physical_eq_iff w w').mp (Option.some.inj hw)
      simp only [hp.1, p1, p2, p4, p5, hslip, hlen]

theorem physAgree_bodySpeed (exp : α → α) (v v' : Vehicle α) (h : v.PhysAgree v') (dt : α) :
    v.bodySpeed exp dt = v'.bodySpeed exp dt := by
  have hlen := physAgree_length v v' h
  have hstep : v.bodyForceStep exp = v'.bodyForceStep exp := by
    funext acc i
    exact physAgree_bodyForceStep exp v v' h acc i
  unfold Vehicle.bodySpeed Vehicle.totalForce
  rw [hstep, hlen, h.2.1, h.2.2.2.2.1]

/-- The second loop of `Vehicle::update` on two wheels with the same physical fields, for
two vehicles with the same parameters, speed and wheel count. -/
theorem physAgree_wheelStep (exp : α → α) (pi pi' : α) (v v' : Vehicle α)
    (p1 : v.wheelRadius = v'.wheelRadius) (p2 : v.mass = v'.mass)
    (p3 : v.wheelInertia = v'.wheelInertia) (p4 : v.muPeak = v'.muPeak)
    (p5 : v.linearSpeed = v'.linearSpeed) (hlen : v.wheels.length = v'.wheels.length) (dt : α)
    (w w' : Wheel α) (hw : w.physical = w'.physical) :
    (v.wheelStep exp pi dt w).physical = (v'.wheelStep exp pi' dt w').physical := by
  obtain ⟨q1, q2, q3⟩ := (physical_eq_iff w w').mp hw
  rw [physical_eq_iff]
  refine ⟨?_, ?_, ?_⟩
  · rw [wheelStep_angularVelocity, wheelStep_angularVelocity, q1, q2, q3, p1, p2, p3, p4, p5,
      hlen]
  · rw [(wheelStep_torques exp pi v dt w).1, (wheelStep_torques exp pi' v' dt w').1, q2]
  · rw [(wheelStep_torques exp pi v dt w).2, (wheelStep_torques exp pi' v' dt w').2, q3]

theorem physAgree_update (exp : α → α) (pi : α) (v v' : Vehicle α) (h : v.PhysAgree v')
    (dt : α) : (v.update exp pi dt).PhysAgree (v'.update exp pi dt) := by
  have hlen := physAgree_length v v' h
  have hbody := physAgree_bodySpeed exp v v' h dt
  unfold Vehicle.update
  split_ifs with hdt
  · exact h
  · obtain ⟨p1, p2, p3, p4, p5, p6⟩ := h
    refine ⟨p1, p2, p3, p4, hbody, ?_⟩
    apply map_physical_ext _ _ _ _ p6
    intro w w' hw
    let u : Vehicle α := { v with linearSpeed := v.bodySpeed exp dt }
    let u' : Vehicle α := { v' with linearSpeed := v'.bodySpeed exp dt }
    exact physAgree_wheelStep exp pi pi u u' p1 p2 p3 p4 hbody hlen dt w w' hw

theorem physical_wheelResult (c : TractionControl α) (dt slip : α) (w w' : Wheel α)
    (hw : w.physical = w'.physical) :
    (c.wheelResult dt slip w).physical = (c.wheelResult dt slip w').physical := by
  obtain ⟨q1, q2, q3⟩ := (physical_eq_iff w w').mp hw
  rw [physical_eq_iff]
  unfold TractionControl.wheelResult
  split_ifs
  · exact ⟨q1, by simp only [q2], by simp only [q3]⟩
  · exact ⟨q1, by simp only [q2], by simp only [q3]⟩

theorem physAgree_controller (c : TractionControl α) (v v' : Vehicle α) (h : v.PhysAgree v')
    (dt : α) : (c.update v dt).PhysAgree (c.update v' dt) := by
  have hlen := physAgree_length v v' h
  obtain ⟨⟨a1, a2, a3, a4, -, a6, a7⟩, hres⟩ := controller_spec c dt v
  obtain ⟨⟨b1, b2, b3, b4, -, b6, b7⟩, hres'⟩ := controller_spec c dt v'
  have hh := h
  obtain ⟨p1, p2, p3, p4, p5, p6⟩ := hh
  refine ⟨by rw [a1, b1, p1], by rw [a2, b2, p2], by rw [a3, b3, p3], by rw [a4, b4, p4],
    by rw [a6, b6, p5], ?_⟩
  apply List.ext_getElem?
  intro i
  rw [List.getElem?_map, List.getElem?_map]
  have hw := physAgree_wheel v v' h i
  by_cases hlt : i < v.wheels.length
  · have hlt' : i < v'.wheels.length := by omega
    have h1 : v.wheels[i]? = some v.wheels[i] := List.getElem?_eq_getElem hlt
    have h2 : v'.wheels[i]? = some v'.wheels[i] := List.getElem?_eq_getElem hlt'
    rw [h1, h2] at hw
    rw [hres i _ h1, hres' i _ h2, physAgree_slip v v' h (i : Int)]
    simp only [Option.map_some', Option.some.injEq] at hw ⊢
    exact physical_wheelResult c dt _ _ _ hw
  · rw [List.getElem?_eq_none (by rw [a7]; exact not_lt.mp hlt),
      List.getElem?_eq_none (by rw [b7]; omega)]

/-- C22: if two vehicle states agree on everything except the rotation angles of the wheels
and `slipOpt`, then `computeSlipRatio` returns the same value on both for every index, and
for every `dt` the states after `Vehicle::update dt`, and for every controller (every
`desiredSlip`) the states after `TractionControl::update`, again agree on the parameters,
on `linearSpeed` and on every wheel's angular velocity, brake torque and drive torque, and
so `computeSlipRatio` again returns the same value on both for every index. -/
theorem rotation_slipOpt_no_effect (v v' : Vehicle α) (h : v.PhysAgree v') :
    (∀ i : Int, v.computeSlipRatio i = v'.computeSlipRatio i) ∧
    (∀ (exp : α → α) (pi dt : α),
      (v.update exp pi dt).PhysAgree (v'.update exp pi dt) ∧
      ∀ i : Int, (v.update exp pi dt).computeSlipRatio i
        = (v'.update exp pi dt).computeSlipRatio i) ∧
    (∀ (c : TractionControl α) (dt : α),
      (c.update v dt).PhysAgree (c.update v' dt) ∧
      ∀ i : Int, (c.update v dt).computeSlipRatio i = (c.update v' dt).computeSlipRatio i) := by
  refine ⟨physAgree_slip v v' h, ?_, ?_⟩
  · intro exp pi dt
    have hu := physAgree_update exp pi v v' h dt
    exact ⟨hu, physAgree_slip _ _ hu⟩
  · intro c dt
    have hc := physAgree_controller c v v' h dt
    exact ⟨hc, physAgree_slip _ _ hc⟩

theorem sampleVehicle_physAgree : sampleVehicle.PhysAgree sampleVehicleTurned :=
  ⟨rfl, rfl, rfl, rfl, rfl, rfl⟩

theorem rotation_slipOpt_no_effect_witness :
    sampleVehicle.PhysAgree sampleVehicleTurned ∧
    sampleVehicle.slipOpt ≠ sampleVehicleTurned.slipOpt ∧
    sampleVehicle.computeSlipRatio 0 = sampleVehicleTurned.computeSlipRatio 0 ∧
    (sampleVehicle.update sampleExp 3 (1 / 100)).PhysAgree
      (sampleVehicleTurned.update sampleExp 3 (1 / 100)) ∧
    ((TractionControl.new (1 / 10 : ℚ)).update sampleVehicle (1 / 100)).PhysAgree
      ((TractionControl.new (1 / 10 : ℚ)).update sampleVehicleTurned (1 / 100)) :=
  ⟨sampleVehicle_physAgree,
    by norm_num [sampleVehicle, sampleVehicleTurned],
    (rotation_slipOpt_no_effect sampleVehicle sampleVehicleTurned sampleVehicle_physAgree).1 0,
    ((rotation_slipOpt_no_effect sampleVehicle sampleVehicleTurned
      sampleVehicle_physAgree).2.1 sampleExp 3 (1 / 100)).1,
    ((rotation_slipOpt_no_effect sampleVehicle sampleVehicleTurned
      sampleVehicle_physAgree).2.2 (TractionControl.new (1 / 10 : ℚ)) (1 / 100)).1⟩

/-! ## Bound on the change of the body speed -/

/-- The friction coefficient of the source lies between `0` and `muPeak`, and strictly below
`muPeak` when `muPeak > 0`, for an `exp` that is positive and at most `1` on the
non-positive numbers. -/
theorem friction_coeff_range (exp : α → α) (hpos : ∀ x : α, 0 < exp x)
    (hle : ∀ x : α, x ≤ 0 → exp x ≤ 1) (muPeak slip : α) (hmu : 0 ≤ muPeak) :
    0 ≤ muPeak * (1 - exp (-10 * |slip|)) ∧ muPeak * (1 - exp (-10 * |slip|)) ≤ muPeak ∧
      (0 < muPeak → muPeak * (1 - exp (-10 * |slip|)) < muPeak) := by
  have h0 := friction_coeff_nonneg exp hle muPeak slip hmu
  have hp := hpos (-10 * |slip|)
  refine ⟨h0, ?_, ?_⟩
  · have := mul_nonneg hmu hp.le
    linarith
  · intro hmu'
    have := mul_pos hmu' hp
    linarith

/-- Each wheel's force in the first loop of `Vehicle::update` is at most `muPeak` times
the normal force of one wheel, in absolute value. -/
theorem wheelForce_abs_le (exp : α → α) (hpos : ∀ x : α, 0 < exp x)
    (hle : ∀ x : α, x ≤ 0 → exp x ≤ 1) (v : Vehicle α) (hm : 0 < v.mass)
    (hmu : 0 ≤ v.muPeak) (i : Nat) (h : i < v.wheels.length) :
    |v.wheelForce exp i| ≤ v.muPeak * (v.mass * 9.81 / (v.wheels.length : α)) := by
  have hN : 0 ≤ v.mass * 9.81 / (v.wheels.length : α) :=
    div_nonneg (mul_nonneg hm.le (by norm_num)) (Nat.cast_nonneg _)
  obtain ⟨c0, c1, -⟩ :=
    friction_coeff_range exp hpos hle v.muPeak (v.computeSlipRatio (i : Int)) hmu
  have hprod0 := mul_nonneg c0 hN
  have hprod1 := mul_le_mul_of_nonneg_right c1 hN
  rw [wheelForce_inRange exp v i h, abs_le]
  split_ifs
  · constructor <;> linarith
  · constructor <;> linarith

theorem totalForce_abs_le (exp : α → α) (hpos : ∀ x : α, 0 < exp x)
    (hle : ∀ x : α, x ≤ 0 → exp x ≤ 1) (v : Vehicle α) (hm : 0 < v.mass)
    (hmu : 0 ≤ v.muPeak) (hn : 0 < v.wheels.length) :
    |v.totalForce exp| ≤ v.muPeak * (v.mass * 9.81) := by
  have hn' : (0 : α) < (v.wheels.length : α) := Nat.cast_pos.mpr hn
  rw [totalForce_eq_sum]
  calc |∑ i in Finset.range v.wheels.length, v.wheelForce exp i|
      ≤ ∑ i in Finset.range v.wheels.length, |v.wheelForce exp i| :=
        Finset.abs_sum_le_sum_abs _ _
    _ ≤ ∑ _i in Finset.range v.wheels.length,
          v.muPeak * (v.mass * 9.81 / (v.wheels.length : α)) :=
        Finset.sum_le_sum (fun i hi =>
          wheelForce_abs_le exp hpos hle v hm hmu i (Finset.mem_range.mp hi))
    _ = v.muPeak * (v.mass * 9.81) := by
        rw [Finset.sum_const, Finset.card_range, nsmul_eq_mul]
        field_simp

/-- C23: for `dt > 0`, `mass > 0`, `muPeak ≥ 0`, at least one wheel and `linearSpeed ≥ 0`,
with an `exp` that is positive and at most `1` on the non-positive numbers (as `std::exp`
is), the body speed `v'` after `Vehicle::update dt` satisfies
`|v' - v| ≤ muPeak * 9.81 * dt`, whatever the wheel speeds and torques; each friction
coefficient `muPeak * (1 - exp (-10 * |slip|))` lies in `[0, muPeak]`, and strictly below
`muPeak` when `muPeak > 0`. -/
theorem body_speed_step_bound (exp : α → α) (hpos : ∀ x : α, 0 < exp x)
    (hle : ∀ x : α, x ≤ 0 → exp x ≤ 1) (pi : α) (v : Vehicle α) (dt : α) (hdt : 0 < dt)
    (hm : 0 < v.mass) (hmu : 0 ≤ v.muPeak) (hn : 0 < v.wheels.length)
    (hv : 0 ≤ v.linearSpeed) :
    |(v.update exp pi dt).linearSpeed - v.linearSpeed| ≤ v.muPeak * 9.81 * dt ∧
    ∀ i : Int,
      0 ≤ v.muPeak * (1 - exp (-10 * |v.computeSlipRatio i|)) ∧
      v.muPeak * (1 - exp (-10 * |v.computeSlipRatio i|)) ≤ v.muPeak ∧
      (0 < v.muPeak → v.muPeak * (1 - exp (-10 * |v.computeSlipRatio i|)) < v.muPeak) := by
  refine ⟨?_, fun i => friction_coeff_range exp hpos hle v.muPeak _ hmu⟩
  have hspeed : (v.update exp pi dt).linearSpeed
      = max (v.linearSpeed + v.totalForce exp / v.mass * dt) 0 := by
    rw [linearSpeed_after_update exp pi v dt hdt]
    unfold Vehicle.bodySpeed
    simp only [lit_zero]
    rw [clamp_eq_max, max_comm]
  have hv' : v.linearSpeed = max v.linearSpeed 0 := (max_eq_left hv).symm
  have htot := totalForce_abs_le exp hpos hle v hm hmu hn
  have hacc : |v.totalForce exp / v.mass * dt| ≤ v.muPeak * 9.81 * dt := by
    rw [abs_mul, abs_div, abs_of_pos hm, abs_of_pos hdt]
    apply mul_le_mul_of_nonneg_right _ hdt.le
    rw [div_le_iff₀ hm]
    calc |v.totalForce exp| ≤ v.muPeak * (v.mass * 9.81) := htot
      _ = v.muPeak * 9.81 * v.mass := by ring
  calc |(v.update exp pi dt).linearSpeed - v.linearSpeed|
      = |max (v.linearSpeed + v.totalForce exp / v.mass * dt) 0 - max v.linearSpeed 0| := by
        rw [hspeed, ← hv']
    _ ≤ |v.linearSpeed + v.totalForce exp / v.mass * dt - v.linearSpeed| :=
        abs_max_sub_max_le_abs _ _ _
    _ = |v.totalForce exp / v.mass * dt| := by rw [add_sub_cancel_left]
    _ ≤ v.muPeak * 9.81 * dt := hacc

theorem body_speed_step_bound_witness :
    ((∀ x : ℝ, 0 < Real.exp x) ∧ (∀ x : ℝ, x ≤ 0 → Real.exp x ≤ 1) ∧ (0 : ℝ) < 0.01 ∧
      0 < (skidVehicle : Vehicle ℝ).mass ∧ 0 ≤ (skidVehicle : Vehicle ℝ).muPeak ∧
      0 < (skidVehicle : Vehicle ℝ).wheels.length ∧
      0 ≤ (skidVehicle : Vehicle ℝ).linearSpeed) ∧
    |((skidVehicle : Vehicle ℝ).update Real.exp Real.pi 0.01).linearSpeed
        - (skidVehicle : Vehicle ℝ).linearSpeed|
      ≤ (skidVehicle : Vehicle ℝ).muPeak * 9.81 * 0.01 := by
  have hpos : ∀ x : ℝ, 0 < Real.exp x := Real.exp_pos
  have hle : ∀ x : ℝ, x ≤ 0 → Real.exp x ≤ 1 := fun x hx => Real.exp_le_one_iff.mpr hx
  have hdt : (0 : ℝ) < 0.01 := by norm_num
  have hm : 0 < (skidVehicle : Vehicle ℝ).mass := by norm_num [skidVehicle]
  have hmu : 0 ≤ (skidVehicle : Vehicle ℝ).muPeak := by norm_num [skidVehicle]
  have hn : 0 < (skidVehicle : Vehicle ℝ).wheels.length := by simp [skidVehicle]
  have hv : 0 ≤ (skidVehicle : Vehicle ℝ).linearSpeed := by norm_num [skidVehicle]
  exact ⟨⟨hpos, hle, hdt, hm, hmu, hn, hv⟩,
    (body_speed_step_bound Real.exp hpos hle Real.pi skidVehicle 0.01 hdt hm hmu hn hv).1⟩

end TractionSim
